import Mathlib

/-!
Verification development for the SavitarDB in-memory vector store
(`main.go` variant: `VectorDB` with sharding, cosine-similarity search,
metadata filtering).

Modelling conventions:
* `float64` values are idealised as real numbers (`ℝ`); `math.Sqrt` is
  `Real.sqrt`. Overflow, rounding of sums and subnormal underflow are not
  modelled.
* A Go `map[string]Vector` shard is modelled as an association list with
  unique ids; Go's randomised map iteration order is fixed to list order
  (claims about ordering are only made modulo ties, where this matters).
* A Go `map[string]string` metadata map is `Option (List (String × String))`:
  `none` models a nil map (reads yield `""`, writes panic), `some l` models a
  non-nil map with entries `l`.
* Functions returning `(T, error)` are modelled with `Except String T` or
  `GoResult`; runtime panics (nil-map assignment, slice bounds) are the
  `GoResult.panicked` constructor, carrying the Go runtime message.
* `sort.Slice` with a `less` comparison is modelled by insertion sort
  (`sortDesc`) on a key; Go leaves the order of incomparable (tied) elements
  unspecified, and every comparison sort agrees with `sortDesc` whenever the
  keys of the elements involved are pairwise distinct.
* Goroutine fan-out in `SearchVectors` is sequentialised: every shard is
  scanned, then a panic anywhere crashes the call, else the first error (in
  shard order) is reported, else results are merged. This matches the Go
  code, which waits for all goroutines before consuming the error channel.
-/

namespace SavitarDB

/-- Outcome of a Go call: a value, an `error`, or a runtime panic. -/
inductive GoResult (α : Type) where
  | ok (val : α)
  | err (msg : String)
  | panicked (msg : String)

/-- A vector record: `Vector` struct with `ID`, `Data`, `Meta` from main.go.
`meta = none` models a nil Go map. -/
structure Vector where
  id : String
  data : List ℝ
  meta : Option (List (String × String))

/-- Read `m[k]` from a Go string map: nil or missing key yields `""`. -/
def metaGet (m : Option (List (String × String))) (k : String) : String :=
  match m with
  | none => ""
  | some l =>
    match l.find? (fun p => p.1 == k) with
    | none => ""
    | some p => p.2

/-- Write `m[k] = v` on a non-nil Go string map: replace the entry if the key
is present, otherwise add it. -/
def metaSet (l : List (String × String)) (k v : String) : List (String × String) :=
  if l.any (fun p => p.1 == k) then l.map (fun p => if p.1 == k then (k, v) else p)
  else l ++ [(k, v)]

/-- `matchesFilters` from main.go: every filter key must map (under Go map
read semantics, missing key = `""`) to exactly the filter value. -/
def matchesFilters (v : Vector) (filters : List (String × String)) : Bool :=
  filters.all (fun kv => metaGet v.meta kv.1 == kv.2)

/-- The accumulated loop of `CosineSimilarity`: `dotProduct` when applied to
two different lists, `normA`/`normB` when applied to a list and itself. -/
def dotList (xs ys : List ℝ) : ℝ :=
  (List.zipWith (fun a b => a * b) xs ys).sum

/-- Euclidean norm of a sequence (used to state the spec's error conditions). -/
noncomputable def euclidNorm (xs : List ℝ) : ℝ :=
  Real.sqrt (dotList xs xs)

/-- The cosine value `dotProduct / (sqrt normA * sqrt normB)` as a total
function on reals (meaningful when both norms are nonzero). -/
noncomputable def cosineValue (v1 v2 : List ℝ) : ℝ :=
  dotList v1 v2 / (Real.sqrt (dotList v1 v1) * Real.sqrt (dotList v2 v2))

/-- `CosineSimilarity` from main.go: length check, zero-norm check, else the
cosine of the two sequences. -/
noncomputable def CosineSimilarity (v1 v2 : List ℝ) : Except String ℝ :=
  if v1.length ≠ v2.length then .error "vectors must have the same length"
  else if dotList v1 v1 = 0 ∨ dotList v2 v2 = 0 then .error "zero vector detected"
  else .ok (cosineValue v1 v2)

/-- The decimal digit character for `d < 10`. -/
def digitChar (d : ℕ) : Char := Char.ofNat (48 + d)

/-- Fixed-width list of the `k` decimal digits of `n < 10 ^ k`, most
significant first. -/
def natDigitsFixed : ℕ → ℕ → List ℕ
  | 0, _ => []
  | k + 1, n => n / 10 ^ k :: natDigitsFixed k (n % 10 ^ k)

/-- Decimal rendering of `n` micro-units as a fixed-point number with six
fractional digits, e.g. `fmtNat 600000 = "0.600000"`. -/
def fmtNat (n : ℕ) : String :=
  Nat.repr (n / 1000000) ++ "." ++ String.mk ((natDigitsFixed 6 (n % 1000000)).map digitChar)

/-- Go's `fmt.Sprintf` with the fixed-point verb and default precision 6, on
the real idealisation: sign, then the correctly rounded 6-fractional-digit
decimal of the absolute value. -/
noncomputable def format6 (x : ℝ) : String :=
  if x < 0 then "-" ++ fmtNat (round (-x * 1000000)).toNat
  else fmtNat (round (x * 1000000)).toNat

/-- Insert an element into a list sorted descending by `key` (first position
whose occupant has strictly smaller key). -/
def insertDesc {α κ : Type} [LinearOrder κ] (key : α → κ) (a : α) : List α → List α
  | [] => [a]
  | b :: bs => if key b < key a then a :: b :: bs else b :: insertDesc key a bs

/-- Sort a list descending by `key`: the model of `sort.Slice` with the
comparison `key i > key j`. Ties keep an unspecified order in Go; all claims
involving order are settled with pairwise-distinct keys, where every
comparison sort coincides with this one. -/
def sortDesc {α κ : Type} [LinearOrder κ] (key : α → κ) : List α → List α
  | [] => []
  | a :: as => insertDesc key a (sortDesc key as)

/-- The scan loop of `searchShard`: walk the shard's records; for each record
passing the filters, compute the similarity (propagating its error), then
execute `v.Meta[similarity] = fmt...` — a panic if the metadata map is nil,
otherwise an in-place update visible in the stored shard. Returns the updated
shard together with the collected `(vector, similarity)` results. -/
noncomputable def scanVectors (query : List ℝ) (filters : List (String × String)) :
    List Vector → List Vector × GoResult (List (Vector × ℝ))
  | [] => ([], .ok [])
  | v :: vs =>
    if matchesFilters v filters then
      match CosineSimilarity query v.data with
      | .error m => (v :: vs, .err m)
      | .ok sim =>
        match v.meta with
        | none => (v :: vs, .panicked "assignment to entry in nil map")
        | some mp =>
          let v2 : Vector := ⟨v.id, v.data, some (metaSet mp "similarity" (format6 sim))⟩
          match scanVectors query filters vs with
          | (vs2, .ok res) => (v2 :: vs2, .ok ((v2, sim) :: res))
          | (vs2, .err e) => (v2 :: vs2, .err e)
          | (vs2, .panicked p) => (v2 :: vs2, .panicked p)
    else
      match scanVectors query filters vs with
      | (vs2, r) => (v :: vs2, r)

/-- `searchShard` from main.go: scan and score the shard's records, sort the
results descending by (numeric) similarity, return the first `topN` vectors.
The updated shard state is returned alongside. -/
noncomputable def searchShard (s : List Vector) (query : List ℝ) (topN : ℤ)
    (filters : List (String × String)) : List Vector × GoResult (List Vector) :=
  match scanVectors query filters s with
  | (s2, .ok results) =>
    (s2, .ok (((sortDesc Prod.snd results).take topN.toNat).map Prod.fst))
  | (s2, .err e) => (s2, .err e)
  | (s2, .panicked p) => (s2, .panicked p)

/-- `VectorDB` from main.go: a fixed list of shards. -/
structure VectorDB where
  shards : List (List Vector)
  shardCount : Nat

/-- `NewVectorDB` from main.go: `shardCount` empty shards. -/
def NewVectorDB (shardCount : Nat) : VectorDB :=
  ⟨List.replicate shardCount [], shardCount⟩

/-- `hashID` from main.go: iterated `(hash * 31 + char) mod shardCount` over
the id's characters (Go ranges over runes; `Char.toNat` is the code point). -/
def hashID (shardCount : Nat) (id : String) : Nat :=
  id.data.foldl (fun hash c => (hash * 31 + c.toNat) % shardCount) 0

/-- `AddVector` from main.go: route to the shard of the id; fail if present,
else store. Returns the updated store and the Go error value. -/
def AddVector (db : VectorDB) (v : Vector) : VectorDB × Option String :=
  let i := hashID db.shardCount v.id
  let s := db.shards.getD i []
  match s.find? (fun w => w.id == v.id) with
  | some _ => (db, some "vector with this ID already exists")
  | none => (⟨db.shards.set i (s ++ [v]), db.shardCount⟩, none)

/-- `UpdateVector` from main.go: route; fail if absent, else replace the
stored record wholesale. -/
def UpdateVector (db : VectorDB) (v : Vector) : VectorDB × Option String :=
  let i := hashID db.shardCount v.id
  let s := db.shards.getD i []
  match s.find? (fun w => w.id == v.id) with
  | none => (db, some "vector not found")
  | some _ =>
    (⟨db.shards.set i (s.map (fun w => if w.id == v.id then v else w)), db.shardCount⟩, none)

/-- `GetVector` from main.go: route; fail if absent, else return the record. -/
def GetVector (db : VectorDB) (id : String) : Except String Vector :=
  match (db.shards.getD (hashID db.shardCount id) []).find? (fun w => w.id == id) with
  | none => .error "vector not found"
  | some v => .ok v

/-- `DeleteVector` from main.go: route; fail if absent, else remove. -/
def DeleteVector (db : VectorDB) (id : String) : VectorDB × Option String :=
  let i := hashID db.shardCount id
  let s := db.shards.getD i []
  match s.find? (fun w => w.id == id) with
  | none => (db, some "vector not found")
  | some _ => (⟨db.shards.set i (s.filter (fun w => w.id != id)), db.shardCount⟩, none)

/-- Selector: the panic message of a shard outcome (a goroutine panic
crashes the whole `SearchVectors` call). -/
def panicOf {α : Type} (r : GoResult α) : Option String :=
  match r with
  | .panicked m => some m
  | _ => none

/-- Selector: the error message of a shard outcome (what the shard goroutine
sends on the error channel). -/
def errOf {α : Type} (r : GoResult α) : Option String :=
  match r with
  | .err m => some m
  | _ => none

/-- Selector: the result list of a successful shard outcome (what the shard
goroutine sends on the results channel). -/
def resultsOf (r : GoResult (List Vector)) : List Vector :=
  match r with
  | .ok l => l
  | _ => []

/-- `SearchVectors` from main.go: scan every shard (concurrently in Go; a
panic in any goroutine crashes the call), fail with the first scan error if
any, else merge all shard results, sort them descending by the metadata
`similarity` string (Go string comparison), and apply the final
`allResults[:topN]` slice — which panics for negative `topN` when the length
check `len > topN` passes. -/
noncomputable def SearchVectors (db : VectorDB) (query : List ℝ) (topN : ℤ)
    (filters : List (String × String)) : VectorDB × GoResult (List Vector) :=
  let scanned := db.shards.map (fun s => searchShard s query topN filters)
  let db2 : VectorDB := ⟨scanned.map Prod.fst, db.shardCount⟩
  match scanned.findSome? (fun p => panicOf p.2) with
  | some m => (db2, .panicked m)
  | none =>
    match scanned.findSome? (fun p => errOf p.2) with
    | some m => (db2, .err m)
    | none =>
      let allResults := (scanned.map (fun p => resultsOf p.2)).flatten
      let sorted := sortDesc (fun v => metaGet v.meta "similarity") allResults
      if (sorted.length : ℤ) > topN then
        if topN < 0 then (db2, .panicked "slice bounds out of range")
        else (db2, .ok (sorted.take topN.toNat))
      else (db2, .ok sorted)

/-- Modelled from the spec: the reference single-pass brute-force search the
spec compares `searchVectors` against — "a single-pass brute-force scan of
all records sorted by descending similarity and truncated to N", with no
filters. Returns the ids in order. -/
noncomputable def bruteForceTopIds (db : VectorDB) (query : List ℝ) (n : ℕ) : List String :=
  ((sortDesc (fun r => cosineValue query r.data) db.shards.flatten).take n).map Vector.id

/-- The record update performed by a successful scan on a record: a matching
record gets the formatted similarity written into its metadata, a
non-matching record is untouched. -/
noncomputable def updScan (query : List ℝ) (filters : List (String × String))
    (r : Vector) : Vector :=
  if matchesFilters r filters then
    ⟨r.id, r.data, some (metaSet (r.meta.getD []) "similarity"
      (format6 (cosineValue query r.data)))⟩
  else r

/-! ### Arithmetic lemmas about the similarity function -/

theorem dotList_nil (ys : List ℝ) : dotList [] ys = 0 := rfl

theorem dotList_cons (x y : ℝ) (xs ys : List ℝ) :
    dotList (x :: xs) (y :: ys) = x * y + dotList xs ys := by
  simp [dotList]

theorem dotList_self_nonneg (xs : List ℝ) : 0 ≤ dotList xs xs := by
  induction xs with
  | nil => simp [dotList]
  | cons x xs ih => rw [dotList_cons]; exact add_nonneg (mul_self_nonneg x) ih

/-- Cauchy–Schwarz for the accumulated sums of the similarity loop. -/
theorem dotList_sq_le (xs : List ℝ) : ∀ ys : List ℝ,
    dotList xs ys ^ 2 ≤ dotList xs xs * dotList ys ys := by
  induction xs with
  | nil =>
    intro ys
    simp [dotList]
  | cons x xs ih =>
    intro ys
    cases ys with
    | nil =>
      have h1 : dotList (x :: xs) ([] : List ℝ) = 0 := by simp [dotList]
      rw [h1]
      simpa using mul_nonneg (dotList_self_nonneg (x :: xs)) (dotList_self_nonneg [])
    | cons y ys =>
      rw [dotList_cons, dotList_cons, dotList_cons]
      have hD := ih ys
      have hA := dotList_self_nonneg xs
      have hB := dotList_self_nonneg ys
      set D := dotList xs ys with hDdef
      set A := dotList xs xs with hAdef
      set B := dotList ys ys with hBdef
      rcases eq_or_lt_of_le hA with hA0 | hApos
      · have hD0 : D = 0 := by
          have : D ^ 2 ≤ 0 := by nlinarith
          have := sq_nonneg D
          nlinarith
        rw [hD0, ← hA0]
        nlinarith [mul_nonneg (mul_self_nonneg x) hB]
      · nlinarith [sq_nonneg (A * y - D * x), mul_nonneg (mul_self_nonneg x) (by nlinarith : (0:ℝ) ≤ A * B - D ^ 2), mul_nonneg hA (by nlinarith : (0:ℝ) ≤ A * B - D ^ 2)]

theorem euclidNorm_eq_zero_iff (xs : List ℝ) : euclidNorm xs = 0 ↔ dotList xs xs = 0 := by
  unfold euclidNorm
  rw [Real.sqrt_eq_zero']
  constructor
  · intro h; exact le_antisymm h (dotList_self_nonneg xs)
  · intro h; exact le_of_eq h

theorem cosineValue_self (v : List ℝ) (h : dotList v v ≠ 0) : cosineValue v v = 1 := by
  unfold cosineValue
  rw [Real.mul_self_sqrt (dotList_self_nonneg v)]
  exact div_self h

theorem cosineValue_bounds (v1 v2 : List ℝ) (h1 : dotList v1 v1 ≠ 0)
    (h2 : dotList v2 v2 ≠ 0) : -1 ≤ cosineValue v1 v2 ∧ cosineValue v1 v2 ≤ 1 := by
  have hA : 0 < dotList v1 v1 := lt_of_le_of_ne (dotList_self_nonneg v1) (Ne.symm h1)
  have hB : 0 < dotList v2 v2 := lt_of_le_of_ne (dotList_self_nonneg v2) (Ne.symm h2)
  have hsA : 0 < Real.sqrt (dotList v1 v1) := Real.sqrt_pos.mpr hA
  have hsB : 0 < Real.sqrt (dotList v2 v2) := Real.sqrt_pos.mpr hB
  have ht : 0 < Real.sqrt (dotList v1 v1) * Real.sqrt (dotList v2 v2) := mul_pos hsA hsB
  have hsq : dotList v1 v2 ^ 2 ≤ (Real.sqrt (dotList v1 v1) * Real.sqrt (dotList v2 v2)) ^ 2 := by
    rw [mul_pow, Real.sq_sqrt hA.le, Real.sq_sqrt hB.le]
    exact dotList_sq_le v1 v2
  constructor
  · rw [cosineValue, le_div_iff₀ ht]
    nlinarith [sq_nonneg (dotList v1 v2 + Real.sqrt (dotList v1 v1) * Real.sqrt (dotList v2 v2))]
  · rw [cosineValue, div_le_one ht]
    nlinarith [sq_nonneg (dotList v1 v2 - Real.sqrt (dotList v1 v1) * Real.sqrt (dotList v2 v2))]

theorem CosineSimilarity_ok (v1 v2 : List ℝ) (hl : v1.length = v2.length)
    (h1 : dotList v1 v1 ≠ 0) (h2 : dotList v2 v2 ≠ 0) :
    CosineSimilarity v1 v2 = .ok (cosineValue v1 v2) := by
  unfold CosineSimilarity
  rw [if_neg (by simp [hl]), if_neg (by simp [h1, h2])]

/-- C7: the similarity function fails with the length-mismatch error exactly
when the lengths differ, with the zero-vector error exactly when the lengths
agree and either Euclidean norm is zero, and returns a value otherwise. -/
theorem C7_similarity_error_conditions (v1 v2 : List ℝ) :
    (CosineSimilarity v1 v2 = .error "vectors must have the same length" ↔
      v1.length ≠ v2.length) ∧
    (CosineSimilarity v1 v2 = .error "zero vector detected" ↔
      v1.length = v2.length ∧ (euclidNorm v1 = 0 ∨ euclidNorm v2 = 0)) ∧
    ((∃ x, CosineSimilarity v1 v2 = .ok x) ↔
      v1.length = v2.length ∧ euclidNorm v1 ≠ 0 ∧ euclidNorm v2 ≠ 0) := by
  by_cases hlen : v1.length = v2.length
  · by_cases hzero : dotList v1 v1 = 0 ∨ dotList v2 v2 = 0
    · have hres : CosineSimilarity v1 v2 = .error "zero vector detected" := by
        unfold CosineSimilarity
        rw [if_neg (by simp [hlen]), if_pos hzero]
      refine ⟨?_, ?_, ?_⟩
      · rw [hres]
        constructor
        · intro h; exact absurd (Except.error.inj h) (by decide)
        · intro h; exact absurd hlen h
      · rw [hres]
        simp [hlen, hzero, euclidNorm_eq_zero_iff]
      · rw [hres]
        constructor
        · rintro ⟨x, hx⟩; exact absurd hx (by simp)
        · rintro ⟨-, h1, h2⟩
          rw [Ne, euclidNorm_eq_zero_iff] at h1 h2
          tauto
    · push_neg at hzero
      have hres : CosineSimilarity v1 v2 = .ok (cosineValue v1 v2) :=
        CosineSimilarity_ok v1 v2 hlen hzero.1 hzero.2
      refine ⟨?_, ?_, ?_⟩
      · rw [hres]
        constructor
        · intro h; exact absurd h (by simp)
        · intro h; exact absurd hlen h
      · rw [hres]
        constructor
        · intro h; exact absurd h (by simp)
        · rintro ⟨-, h⟩
          rw [euclidNorm_eq_zero_iff, euclidNorm_eq_zero_iff] at h
          tauto
      · rw [hres]
        constructor
        · intro _
          refine ⟨hlen, ?_, ?_⟩ <;> rw [Ne, euclidNorm_eq_zero_iff]
          · exact hzero.1
          · exact hzero.2
        · intro _; exact ⟨_, rfl⟩
  · have hres : CosineSimilarity v1 v2 = .error "vectors must have the same length" := by
      unfold CosineSimilarity
      rw [if_pos (by simp [hlen])]
    refine ⟨?_, ?_, ?_⟩
    · rw [hres]
      simp [hlen]
    · rw [hres]
      constructor
      · intro h; exact absurd (Except.error.inj h) (by decide)
      · rintro ⟨h, -⟩; exact absurd h hlen
    · rw [hres]
      constructor
      · rintro ⟨x, hx⟩; exact absurd hx (by simp)
      · rintro ⟨h, -⟩; exact absurd h hlen

/-- C6: on equal-length sequences with nonzero Euclidean norms the similarity
function succeeds with a value in the interval from -1 to 1, and the
similarity of a nonzero sequence with itself is 1. -/
theorem C6_similarity_bounds :
    (∀ v1 v2 : List ℝ, v1.length = v2.length → euclidNorm v1 ≠ 0 → euclidNorm v2 ≠ 0 →
      ∃ x, CosineSimilarity v1 v2 = .ok x ∧ -1 ≤ x ∧ x ≤ 1) ∧
    (∀ v : List ℝ, euclidNorm v ≠ 0 → CosineSimilarity v v = .ok 1) := by
  constructor
  · intro v1 v2 hl h1 h2
    rw [Ne, euclidNorm_eq_zero_iff] at h1 h2
    refine ⟨cosineValue v1 v2, CosineSimilarity_ok v1 v2 hl h1 h2, ?_, ?_⟩
    · exact (cosineValue_bounds v1 v2 h1 h2).1
    · exact (cosineValue_bounds v1 v2 h1 h2).2
  · intro v h
    rw [Ne, euclidNorm_eq_zero_iff] at h
    rw [CosineSimilarity_ok v v rfl h h, cosineValue_self v h]

/-- Witness for C6 at concrete inputs: orthogonal unit vectors, and the
vector with entries 3 and 4 against itself. -/
theorem C6_similarity_bounds_witness :
    (∃ x, CosineSimilarity [(1:ℝ), 0] [(0:ℝ), 1] = .ok x ∧ -1 ≤ x ∧ x ≤ 1) ∧
    CosineSimilarity [(3:ℝ), 4] [(3:ℝ), 4] = .ok 1 := by
  constructor
  · exact C6_similarity_bounds.1 [1, 0] [0, 1] rfl
      (by rw [Ne, euclidNorm_eq_zero_iff]; simp [dotList])
      (by rw [Ne, euclidNorm_eq_zero_iff]; simp [dotList])
  · exact C6_similarity_bounds.2 [3, 4]
      (by rw [Ne, euclidNorm_eq_zero_iff]; simp [dotList]; norm_num)

/-! ### Routing -/

theorem foldl_hash_lt (c : ℕ) (hc : 0 < c) :
    ∀ (l : List Char) (h : ℕ), h < c →
      l.foldl (fun hash ch => (hash * 31 + ch.toNat) % c) h < c := by
  intro l
  induction l with
  | nil => intro h hh; exact hh
  | cons a l ih =>
    intro h _
    exact ih _ (Nat.mod_lt _ hc)

theorem hashID_lt (c : ℕ) (id : String) (hc : 0 < c) : hashID c id < c :=
  foldl_hash_lt c hc id.data 0 hc

theorem getD_set_ne {α : Type} (l : List α) (i j : ℕ) (a d : α) (h : j ≠ i) :
    (l.set i a).getD j d = l.getD j d := by
  rw [List.getD_eq_getElem?_getD, List.getD_eq_getElem?_getD,
    List.getElem?_set_ne (Ne.symm h)]

/-- C8: the router is a pure in-bounds function of the id and the shard
count, and each CRUD operation touches (or reads) only the routed shard:
add, update and delete leave every other shard unchanged, and get depends
only on the routed shard. -/
theorem C8_routing :
    (∀ (c : ℕ) (id : String), 0 < c → hashID c id < c) ∧
    (∀ (db : VectorDB) (v : Vector) (j : ℕ), j ≠ hashID db.shardCount v.id →
      (AddVector db v).1.shards.getD j [] = db.shards.getD j []) ∧
    (∀ (db : VectorDB) (v : Vector) (j : ℕ), j ≠ hashID db.shardCount v.id →
      (UpdateVector db v).1.shards.getD j [] = db.shards.getD j []) ∧
    (∀ (db : VectorDB) (id : String) (j : ℕ), j ≠ hashID db.shardCount id →
      (DeleteVector db id).1.shards.getD j [] = db.shards.getD j []) ∧
    (∀ (db1 db2 : VectorDB) (id : String), db1.shardCount = db2.shardCount →
      db1.shards.getD (hashID db1.shardCount id) [] =
        db2.shards.getD (hashID db2.shardCount id) [] →
      GetVector db1 id = GetVector db2 id) := by
  refine ⟨fun c id hc => hashID_lt c id hc, ?_, ?_, ?_, ?_⟩
  · intro db v j hj
    simp only [AddVector]
    cases hfind : (db.shards.getD (hashID db.shardCount v.id) []).find?
        (fun w => w.id == v.id) with
    | some w => rfl
    | none => exact getD_set_ne _ _ _ _ _ hj
  · intro db v j hj
    simp only [UpdateVector]
    cases hfind : (db.shards.getD (hashID db.shardCount v.id) []).find?
        (fun w => w.id == v.id) with
    | some w => exact getD_set_ne _ _ _ _ _ hj
    | none => rfl
  · intro db id j hj
    simp only [DeleteVector]
    cases hfind : (db.shards.getD (hashID db.shardCount id) []).find?
        (fun w => w.id == id) with
    | some w => exact getD_set_ne _ _ _ _ _ hj
    | none => rfl
  · intro db1 db2 id hcount hshard
    unfold GetVector
    rw [hcount] at hshard ⊢
    rw [hshard]

/-- Witness for C8 at concrete inputs: a 4-shard router bound, frame
conditions for add, update and delete on a two-shard store (the id routes to
shard 1, shard 0 is untouched), and get reading only the routed shard. -/
theorem C8_routing_witness :
    hashID 4 "vec1" < 4 ∧
    (AddVector ⟨[[], []], 2⟩ ⟨"a", [1], none⟩).1.shards.getD 0 [] =
      (⟨[[], []], 2⟩ : VectorDB).shards.getD 0 [] ∧
    (UpdateVector ⟨[[], []], 2⟩ ⟨"a", [1], none⟩).1.shards.getD 0 [] =
      (⟨[[], []], 2⟩ : VectorDB).shards.getD 0 [] ∧
    (DeleteVector ⟨[[], []], 2⟩ "a").1.shards.getD 0 [] =
      (⟨[[], []], 2⟩ : VectorDB).shards.getD 0 [] ∧
    GetVector ⟨[[]], 1⟩ "a" = GetVector ⟨[[], []], 1⟩ "a" :=
  ⟨C8_routing.1 4 "vec1" (by decide),
   C8_routing.2.1 ⟨[[], []], 2⟩ ⟨"a", [1], none⟩ 0 (by decide),
   C8_routing.2.2.1 ⟨[[], []], 2⟩ ⟨"a", [1], none⟩ 0 (by decide),
   C8_routing.2.2.2.1 ⟨[[], []], 2⟩ "a" 0 (by decide),
   C8_routing.2.2.2.2 ⟨[[]], 1⟩ ⟨[[], []], 1⟩ "a" rfl rfl⟩

/-! ### Concrete evaluation helpers -/

theorem sqrt_twentyfive : Real.sqrt 25 = 5 := by
  rw [show (25:ℝ) = 5 ^ 2 by norm_num, Real.sqrt_sq (by norm_num : (0:ℝ) ≤ 5)]

theorem cosValue_one_one : cosineValue [(1:ℝ)] [(1:ℝ)] = 1 := by
  apply cosineValue_self
  simp [dotList]

theorem cos_one_one : CosineSimilarity [(1:ℝ)] [(1:ℝ)] = .ok 1 := by
  rw [CosineSimilarity_ok _ _ rfl (by simp [dotList]) (by simp [dotList]), cosValue_one_one]

theorem format6_of_natCast (x : ℝ) (n : ℕ) (h0 : 0 ≤ x) (h : x * 1000000 = (n : ℝ)) :
    format6 x = fmtNat n := by
  unfold format6
  rw [if_neg (not_lt.mpr h0), h, round_natCast]
  simp

theorem format6_neg_of_natCast (x : ℝ) (n : ℕ) (h0 : x < 0) (h : -x * 1000000 = (n : ℝ)) :
    format6 x = "-" ++ fmtNat n := by
  unfold format6
  rw [if_pos h0, h, round_natCast]
  simp

theorem format6_one : format6 1 = "1.000000" := by
  rw [format6_of_natCast 1 1000000 (by norm_num) (by norm_num)]
  decide

theorem scan_single (filters : List (String × String))
    (hm : matchesFilters ⟨"a", [(1:ℝ)], some []⟩ filters = true) :
    scanVectors [(1:ℝ)] filters [⟨"a", [1], some []⟩] =
      ([⟨"a", [1], some [("similarity", "1.000000")]⟩],
       .ok [(⟨"a", [1], some [("similarity", "1.000000")]⟩, 1)]) := by
  simp [scanVectors, hm, cos_one_one, format6_one, metaSet]

theorem search_shard_single (filters : List (String × String))
    (hm : matchesFilters ⟨"a", [(1:ℝ)], some []⟩ filters = true) :
    searchShard [⟨"a", [1], some []⟩] [(1:ℝ)] 1 filters =
      ([⟨"a", [1], some [("similarity", "1.000000")]⟩],
       .ok [⟨"a", [1], some [("similarity", "1.000000")]⟩]) := by
  simp [searchShard, scan_single filters hm, sortDesc, insertDesc]

theorem search_db_single (filters : List (String × String))
    (hm : matchesFilters ⟨"a", [(1:ℝ)], some []⟩ filters = true) :
    SearchVectors ⟨[[⟨"a", [1], some []⟩]], 1⟩ [(1:ℝ)] 1 filters =
      (⟨[[⟨"a", [1], some [("similarity", "1.000000")]⟩]], 1⟩,
       .ok [⟨"a", [1], some [("similarity", "1.000000")]⟩]) := by
  simp [SearchVectors, search_shard_single filters hm, List.findSome?, panicOf, errOf,
    resultsOf, sortDesc, insertDesc]

/-! ### C2: filter semantics -/

/-- C2 counterexample: the record with id `a` has metadata `some []`, which
does not contain the key `k` at all (its Go map read is the zero value `""`);
yet with the filter requiring `k = ""` the record is included in the search
output. The claim that a record missing a required filter key is always
excluded is therefore false. -/
theorem C2_counterexample :
    metaGet (some []) "k" = "" ∧
    (SearchVectors ⟨[[⟨"a", [1], some []⟩]], 1⟩ [(1:ℝ)] 1 [("k", "")]).2 =
      .ok [⟨"a", [1], some [("similarity", "1.000000")]⟩] := by
  refine ⟨rfl, ?_⟩
  rw [search_db_single [("k", "")] (by decide)]

/-- C2 amended: a record is included by the filter check exactly when, for
every filter key, the Go map read of the record's metadata at that key (which
is the empty string when the key is missing or the map is nil) equals the
filter's value; in particular a record missing a required key is excluded
unless that filter's value is the empty string. -/
theorem C2_amended_filter_semantics (v : Vector) (filters : List (String × String)) :
    matchesFilters v filters = true ↔ ∀ kv ∈ filters, metaGet v.meta kv.1 = kv.2 := by
  simp [matchesFilters]

/-! ### C9: insert/get round-trip -/

/-- C9 counterexample: insert the record `a` with empty (non-nil) metadata,
then run a successful search touching it; `getVector a` now returns the
record with a `similarity` entry added to its metadata, so it is no longer
equal to the inserted record even though no update or delete of `a`
happened in between. -/
theorem C9_counterexample :
    (AddVector (NewVectorDB 1) ⟨"a", [1], some []⟩).2 = none ∧
    GetVector (SearchVectors (AddVector (NewVectorDB 1) ⟨"a", [1], some []⟩).1
        [(1:ℝ)] 1 []).1 "a" =
      .ok ⟨"a", [1], some [("similarity", "1.000000")]⟩ ∧
    (⟨"a", [1], some [("similarity", "1.000000")]⟩ : Vector) ≠ ⟨"a", [1], some []⟩ := by
  have hadd : AddVector (NewVectorDB 1) ⟨"a", [1], some []⟩ =
      (⟨[[⟨"a", [1], some []⟩]], 1⟩, none) := by
    simp [AddVector, NewVectorDB, hashID]
  have hdb1 : (AddVector (NewVectorDB 1) ⟨"a", [1], some []⟩).1 =
      ⟨[[⟨"a", [1], some []⟩]], 1⟩ := by rw [hadd]
  refine ⟨by rw [hadd], ?_, by simp⟩
  rw [hdb1, search_db_single [] rfl]
  simp [GetVector, hashID]

theorem find?_id_map_replace (w : Vector) (id : String) (h : w.id ≠ id)
    (s : List Vector) :
    (s.map (fun x => if x.id == w.id then w else x)).find? (fun x => x.id == id) =
      s.find? (fun x => x.id == id) := by
  induction s with
  | nil => rfl
  | cons y ys ih =>
    simp only [List.map_cons]
    by_cases hy : y.id = w.id
    · rw [if_pos (by simp [hy]), List.find?_cons_of_neg _ (by simp [h]), ih,
        List.find?_cons_of_neg _ (by simp [hy, h])]
    · rw [if_neg (by simp [hy])]
      by_cases hyid : y.id = id
      · rw [List.find?_cons_of_pos _ (by simp [hyid]), List.find?_cons_of_pos _ (by simp [hyid])]
      · rw [List.find?_cons_of_neg _ (by simp [hyid]), ih,
          List.find?_cons_of_neg _ (by simp [hyid])]

theorem find?_id_filter_ne (wid id : String) (h : wid ≠ id) (s : List Vector) :
    (s.filter (fun x => x.id != wid)).find? (fun x => x.id == id) =
      s.find? (fun x => x.id == id) := by
  induction s with
  | nil => rfl
  | cons y ys ih =>
    by_cases hy : y.id = wid
    · rw [List.filter_cons_of_neg (by simp [hy]), ih,
        List.find?_cons_of_neg _ (by simp [hy, h])]
    · rw [List.filter_cons_of_pos (by simp [hy])]
      by_cases hyid : y.id = id
      · rw [List.find?_cons_of_pos _ (by simp [hyid]), List.find?_cons_of_pos _ (by simp [hyid])]
      · rw [List.find?_cons_of_neg _ (by simp [hyid]), ih,
          List.find?_cons_of_neg _ (by simp [hyid])]

theorem GetVector_AddVector_other (db : VectorDB) (w : Vector) (id : String)
    (h : w.id ≠ id) : GetVector (AddVector db w).1 id = GetVector db id := by
  simp only [AddVector]
  cases hfind : (db.shards.getD (hashID db.shardCount w.id) []).find?
      (fun x => x.id == w.id) with
  | some x => rfl
  | none =>
    show GetVector ⟨db.shards.set _ _, db.shardCount⟩ id = GetVector db id
    unfold GetVector
    by_cases hij : hashID db.shardCount id = hashID db.shardCount w.id
    · by_cases hlt : hashID db.shardCount w.id < db.shards.length
      · rw [hij, List.getD_eq_getElem?_getD, List.getElem?_set_self hlt,
          Option.getD_some, List.find?_append]
        have hw : List.find? (fun x => x.id == id) [w] = none := by
          rw [List.find?_cons_of_neg _ (by simp [h])]; rfl
        rw [hw, Option.or_none, List.getD_eq_getElem?_getD]
      · rw [List.set_eq_of_length_le (Nat.le_of_not_lt hlt)]
    · rw [getD_set_ne _ _ _ _ _ hij]

theorem GetVector_UpdateVector_other (db : VectorDB) (w : Vector) (id : String)
    (h : w.id ≠ id) : GetVector (UpdateVector db w).1 id = GetVector db id := by
  simp only [UpdateVector]
  cases hfind : (db.shards.getD (hashID db.shardCount w.id) []).find?
      (fun x => x.id == w.id) with
  | none => rfl
  | some x =>
    show GetVector ⟨db.shards.set _ _, db.shardCount⟩ id = GetVector db id
    unfold GetVector
    by_cases hij : hashID db.shardCount id = hashID db.shardCount w.id
    · by_cases hlt : hashID db.shardCount w.id < db.shards.length
      · rw [hij, List.getD_eq_getElem?_getD, List.getElem?_set_self hlt, Option.getD_some,
          find?_id_map_replace w id h, List.getD_eq_getElem?_getD]
      · rw [List.set_eq_of_length_le (Nat.le_of_not_lt hlt)]
    · rw [getD_set_ne _ _ _ _ _ hij]

theorem GetVector_DeleteVector_other (db : VectorDB) (wid id : String)
    (h : wid ≠ id) : GetVector (DeleteVector db wid).1 id = GetVector db id := by
  simp only [DeleteVector]
  cases hfind : (db.shards.getD (hashID db.shardCount wid) []).find?
      (fun x => x.id == wid) with
  | none => rfl
  | some x =>
    show GetVector ⟨db.shards.set _ _, db.shardCount⟩ id = GetVector db id
    unfold GetVector
    by_cases hij : hashID db.shardCount id = hashID db.shardCount wid
    · by_cases hlt : hashID db.shardCount wid < db.shards.length
      · rw [hij, List.getD_eq_getElem?_getD, List.getElem?_set_self hlt, Option.getD_some,
          find?_id_filter_ne wid id h, List.getD_eq_getElem?_getD]
      · rw [List.set_eq_of_length_le (Nat.le_of_not_lt hlt)]
    · rw [getD_set_ne _ _ _ _ _ hij]

/-- C9 amended: a successful insert is immediately readable back unchanged,
and this persists across further adds, updates and deletes of other ids —
but not necessarily across `searchVectors`, which rewrites the metadata of
every record matching its filters (see the counterexample). -/
theorem C9_amended_roundtrip :
    (∀ (db db2 : VectorDB) (v : Vector), db.shards.length = db.shardCount →
      0 < db.shardCount → AddVector db v = (db2, none) → GetVector db2 v.id = .ok v) ∧
    (∀ (db : VectorDB) (w : Vector) (id : String), w.id ≠ id →
      GetVector (AddVector db w).1 id = GetVector db id) ∧
    (∀ (db : VectorDB) (w : Vector) (id : String), w.id ≠ id →
      GetVector (UpdateVector db w).1 id = GetVector db id) ∧
    (∀ (db : VectorDB) (wid id : String), wid ≠ id →
      GetVector (DeleteVector db wid).1 id = GetVector db id) := by
  refine ⟨?_, GetVector_AddVector_other, GetVector_UpdateVector_other,
    GetVector_DeleteVector_other⟩
  intro db db2 v hwf hpos hadd
  have hlt : hashID db.shardCount v.id < db.shards.length := by
    rw [hwf]; exact hashID_lt _ _ hpos
  revert hadd
  simp only [AddVector]
  cases hfind : (db.shards.getD (hashID db.shardCount v.id) []).find?
      (fun x => x.id == v.id) with
  | some x => intro hadd; cases hadd
  | none =>
    intro hadd
    obtain ⟨hdb2, -⟩ := Prod.mk.injEq .. ▸ hadd
    rw [← hdb2]
    unfold GetVector
    show (match ((db.shards.set _ _).getD (hashID db.shardCount v.id) []).find?
        (fun w => w.id == v.id) with
      | none => Except.error "vector not found"
      | some v => Except.ok v) = Except.ok v
    rw [List.getD_eq_getElem?_getD, List.getElem?_set_self hlt, Option.getD_some,
      List.find?_append, hfind]
    simp [List.find?]

/-- Witness for C9 amended: insert `a` into a fresh single-shard store and
read it back; frame parts at a small store and ids `a` versus `b`. -/
theorem C9_amended_witness :
    GetVector ⟨[[⟨"a", [1], none⟩]], 1⟩ "a" = .ok ⟨"a", [1], none⟩ ∧
    GetVector (AddVector ⟨[[]], 1⟩ ⟨"a", [1], none⟩).1 "b" = GetVector ⟨[[]], 1⟩ "b" ∧
    GetVector (UpdateVector ⟨[[]], 1⟩ ⟨"a", [1], none⟩).1 "b" = GetVector ⟨[[]], 1⟩ "b" ∧
    GetVector (DeleteVector ⟨[[]], 1⟩ "a").1 "b" = GetVector ⟨[[]], 1⟩ "b" :=
  ⟨C9_amended_roundtrip.1 (NewVectorDB 1) ⟨[[⟨"a", [1], none⟩]], 1⟩ ⟨"a", [1], none⟩
      rfl (by decide) (by simp [AddVector, NewVectorDB, hashID]),
   C9_amended_roundtrip.2.1 ⟨[[]], 1⟩ ⟨"a", [1], none⟩ "b" (by decide),
   C9_amended_roundtrip.2.2.1 ⟨[[]], 1⟩ ⟨"a", [1], none⟩ "b" (by decide),
   C9_amended_roundtrip.2.2.2 ⟨[[]], 1⟩ "a" "b" (by decide)⟩

/-! ### C3: absence of search argument validation; C5: panics -/

theorem searchShard_nil (q : List ℝ) (n : ℤ) (f : List (String × String)) :
    searchShard [] q n f = ([], .ok []) := by
  simp [searchShard, scanVectors, sortDesc]

theorem findSome?_replicate_none {α β : Type} (n : ℕ) (f : α → Option β) (a : α)
    (h : f a = none) : (List.replicate n a).findSome? f = none := by
  induction n with
  | zero => rfl
  | succ n ih => rw [List.replicate_succ, List.findSome?_cons, h, ih]

theorem flatten_replicate_nil {α : Type} (n : ℕ) :
    (List.replicate n ([] : List α)).flatten = [] := by
  induction n with
  | zero => rfl
  | succ n ih => rw [List.replicate_succ, List.flatten_cons, List.nil_append, ih]

/-- C3 counterexample: a search with `topN = 0` on a fresh single-shard store
returns a successful empty result, not an `InvalidArgument` error — the code
performs no validation of `topN` or the query at all (no such error kind even
exists in the code). -/
theorem C3_counterexample :
    (SearchVectors (NewVectorDB 1) [(1:ℝ)] 0 []).2 = .ok [] := by
  simp [SearchVectors, NewVectorDB, searchShard, scanVectors, List.findSome?, panicOf,
    errOf, resultsOf, sortDesc]

/-- C3 amended: `searchVectors` does not validate its arguments. On a store
whose partitions are all empty (any query, including the empty query, and any
filters): `topN = 0` returns success with no results and no error, and any
negative `topN` panics at the final slice expression instead of returning an
error. An empty query alone produces no error either; it can only surface a
similarity-function error when some stored record passes the filters. -/
theorem C3_amended_no_validation (c : ℕ) (q : List ℝ)
    (filters : List (String × String)) (t : ℤ) (ht : t < 0) :
    (SearchVectors (NewVectorDB c) q 0 filters).2 = .ok [] ∧
    (SearchVectors (NewVectorDB c) q t filters).2 =
      .panicked "slice bounds out of range" := by
  have hmap : ∀ n : ℤ, (List.replicate c ([] : List Vector)).map
      (fun s => searchShard s q n filters) =
      List.replicate c (([] : List Vector), (GoResult.ok ([] : List Vector))) := by
    intro n
    rw [List.map_replicate, searchShard_nil]
  constructor
  · simp only [SearchVectors, NewVectorDB, hmap 0]
    rw [findSome?_replicate_none _ _ _ rfl, findSome?_replicate_none _ _ _ rfl,
      List.map_replicate]
    simp [flatten_replicate_nil, resultsOf, sortDesc]
  · simp only [SearchVectors, NewVectorDB, hmap t]
    rw [findSome?_replicate_none _ _ _ rfl, findSome?_replicate_none _ _ _ rfl,
      List.map_replicate]
    simp [flatten_replicate_nil, resultsOf, sortDesc, ht]

/-- Witness for C3 amended at concrete inputs: a four-shard empty store, the
query from the demo `main`, no filters, and `topN` equal to minus one. -/
theorem C3_amended_witness :
    (SearchVectors (NewVectorDB 4) [(1:ℝ), 2, 3.5] 0 []).2 = .ok [] ∧
    (SearchVectors (NewVectorDB 4) [(1:ℝ), 2, 3.5] (-1) []).2 =
      .panicked "slice bounds out of range" :=
  C3_amended_no_validation 4 [(1:ℝ), 2, 3.5] [] (-1) (by decide)

/-- C5: contrary to the no-panic contract, a search whose filters are matched
by a stored record carrying a nil metadata map panics (Go: assignment to
entry in nil map) instead of returning a result or a typed error. The spec
names the no-panic behaviour as the intended contract, so this is a code bug
at this input. -/
theorem C5_nil_meta_crash :
    (SearchVectors ⟨[[⟨"a", [1], none⟩]], 1⟩ [(1:ℝ)] 1 []).2 =
      .panicked "assignment to entry in nil map" := by
  simp [SearchVectors, searchShard, scanVectors, matchesFilters, cos_one_one,
    List.findSome?, panicOf]

/-! ### C4: fail-fast on a failing partition scan -/

/-- C4: if one partition's scan fails with an error while every other
partition's scan succeeds (and none panics), the whole `searchVectors` call
returns exactly that error and no result list — no partial merge happens. -/
theorem C4_failfast (db : VectorDB) (q : List ℝ) (n : ℤ)
    (filters : List (String × String)) (pre post : List (List Vector))
    (bad : List Vector) (e : String)
    (hdecomp : db.shards = pre ++ bad :: post)
    (hbad : (searchShard bad q n filters).2 = .err e)
    (hok : ∀ s ∈ pre ++ post, ∃ l, (searchShard s q n filters).2 = .ok l) :
    (SearchVectors db q n filters).2 = .err e := by
  have hokpre : ∀ s ∈ pre, ∃ l, (searchShard s q n filters).2 = GoResult.ok l :=
    fun s hs => hok s (List.mem_append_left _ hs)
  have hokpost : ∀ s ∈ post, ∃ l, (searchShard s q n filters).2 = GoResult.ok l :=
    fun s hs => hok s (List.mem_append_right _ hs)
  have hP : ((pre ++ bad :: post).map (fun s => searchShard s q n filters)).findSome?
      (fun p => panicOf p.2) = none := by
    rw [List.findSome?_eq_none_iff]
    intro x hx
    rw [List.mem_map] at hx
    obtain ⟨s, hs, rfl⟩ := hx
    rcases List.mem_append.mp hs with hs | hs
    · obtain ⟨l, hl⟩ := hokpre s hs
      rw [hl]; rfl
    · rcases List.mem_cons.mp hs with rfl | hs
      · rw [hbad]; rfl
      · obtain ⟨l, hl⟩ := hokpost s hs
        rw [hl]; rfl
  have hE : ((pre ++ bad :: post).map (fun s => searchShard s q n filters)).findSome?
      (fun p => errOf p.2) = some e := by
    rw [List.map_append, List.findSome?_append]
    have h1 : (pre.map (fun s => searchShard s q n filters)).findSome?
        (fun p => errOf p.2) = none := by
      rw [List.findSome?_eq_none_iff]
      intro x hx
      rw [List.mem_map] at hx
      obtain ⟨s, hs, rfl⟩ := hx
      obtain ⟨l, hl⟩ := hokpre s hs
      rw [hl]; rfl
    rw [h1, Option.none_or, List.map_cons, List.findSome?_cons]
    rw [show errOf (searchShard bad q n filters).2 = some e by rw [hbad]; rfl]
  simp only [SearchVectors]
  rw [hdecomp, hP, hE]

/-- Witness for C4 at a concrete store: shard 0 holds a two-dimensional
vector, shard 1 a one-dimensional one; a one-dimensional query makes shard
0's scan fail with the length-mismatch error while shard 1's scan succeeds,
and the whole search returns that error. -/
theorem C4_failfast_witness :
    (SearchVectors ⟨[[⟨"a", [1, 2], some []⟩], [⟨"b", [1], some []⟩]], 2⟩
        [(1:ℝ)] 1 []).2 = .err "vectors must have the same length" := by
  apply C4_failfast _ _ _ _ [] [[⟨"b", [1], some []⟩]] [⟨"a", [1, 2], some []⟩]
    _ rfl
  · simp [searchShard, scanVectors, matchesFilters,
      show CosineSimilarity [(1:ℝ)] [1, 2] = .error "vectors must have the same length" by
        unfold CosineSimilarity
        rw [if_pos (by simp)]]
  · intro s hs
    rcases List.mem_cons.mp hs with rfl | hs
    · exact ⟨[⟨"b", [1], some [("similarity", "1.000000")]⟩],
        by simp [searchShard, scanVectors, matchesFilters, cos_one_one,
          format6_one, metaSet, sortDesc, insertDesc]⟩
    · simp at hs

/-! ### Characterisation of a successful scan -/

theorem CosineSimilarity_ok_inv (v1 v2 : List ℝ) (x : ℝ)
    (h : CosineSimilarity v1 v2 = .ok x) : x = cosineValue v1 v2 := by
  unfold CosineSimilarity at h
  split_ifs at h
  exact (Except.ok.inj h).symm

theorem updScan_id (q : List ℝ) (f : List (String × String)) (r : Vector) :
    (updScan q f r).id = r.id := by
  unfold updScan
  split <;> rfl

theorem updScan_data (q : List ℝ) (f : List (String × String)) (r : Vector) :
    (updScan q f r).data = r.data := by
  unfold updScan
  split <;> rfl

theorem find?_map_replace_key (k val : String) :
    ∀ ps : List (String × String), ps.any (fun p => p.1 == k) = true →
      (ps.map (fun p => if p.1 == k then (k, val) else p)).find?
        (fun p => p.1 == k) = some (k, val) := by
  intro ps
  induction ps with
  | nil => intro h; simp at h
  | cons p ps ih =>
    intro h
    rw [List.map_cons]
    by_cases hp : p.1 = k
    · rw [if_pos (by simp [hp]), List.find?_cons_of_pos _ (by simp)]
    · rw [if_neg (by simp [hp]), List.find?_cons_of_neg _ (by simp [hp])]
      exact ih (by simpa [hp] using h)

theorem find?_metaSet (mp : List (String × String)) (k val : String) :
    (metaSet mp k val).find? (fun p => p.1 == k) = some (k, val) := by
  unfold metaSet
  by_cases h : mp.any (fun p => p.1 == k)
  · rw [if_pos h]
    exact find?_map_replace_key k val mp h
  · rw [if_neg h]
    have hnone : mp.find? (fun p => p.1 == k) = none := by
      rw [List.find?_eq_none]
      intro p hp
      simp only [List.any_eq_true, not_exists, not_and] at h
      simp [h p hp]
    rw [List.find?_append, hnone, Option.none_or,
      List.find?_cons_of_pos _ (by simp)]

theorem metaGet_metaSet (mp : List (String × String)) (k val : String) :
    metaGet (some (metaSet mp k val)) k = val := by
  show (match (metaSet mp k val).find? (fun p => p.1 == k) with
    | none => ""
    | some p => p.2) = val
  rw [find?_metaSet]

theorem find?_map_of_id (g : Vector → Vector) (hg : ∀ x, (g x).id = x.id)
    (rid : String) (s : List Vector) :
    (s.map g).find? (fun x => x.id == rid) =
      (s.find? (fun x => x.id == rid)).map g := by
  induction s with
  | nil => rfl
  | cons y ys ih =>
    rw [List.map_cons]
    by_cases hy : y.id = rid
    · rw [List.find?_cons_of_pos _ (by simp [hg, hy]),
        List.find?_cons_of_pos _ (by simp [hy])]
      rfl
    · rw [List.find?_cons_of_neg _ (by simp [hg, hy]),
        List.find?_cons_of_neg _ (by simp [hy]), ih]

theorem find?_eq_self_of_nodup (s : List Vector) (h : (s.map Vector.id).Nodup)
    (r : Vector) (hr : r ∈ s) : s.find? (fun x => x.id == r.id) = some r := by
  induction s with
  | nil => simp at hr
  | cons y ys ih =>
    rcases List.mem_cons.mp hr with rfl | hr
    · rw [List.find?_cons_of_pos _ (by simp)]
    · have hy : y.id ≠ r.id := by
        intro hid
        have : r.id ∈ ys.map Vector.id := List.mem_map_of_mem Vector.id hr
        rw [List.map_cons, List.nodup_cons] at h
        exact h.1 (hid ▸ this)
      rw [List.find?_cons_of_neg _ (by simp [hy])]
      exact ih (by rw [List.map_cons, List.nodup_cons] at h; exact h.2) hr

/-- A scan on healthy inputs succeeds: every record matching the filters gets
its metadata updated in place with the formatted similarity, and the results
are the matching records (updated) paired with their similarities, in shard
order. -/
theorem scanVectors_eq (q : List ℝ) (f : List (String × String)) :
    ∀ s : List Vector,
      (∀ r ∈ s, matchesFilters r f = true →
        (∃ mp, r.meta = some mp) ∧ ∃ x, CosineSimilarity q r.data = .ok x) →
      scanVectors q f s = (s.map (updScan q f),
        .ok ((s.filter (fun r => matchesFilters r f)).map
          (fun r => (updScan q f r, cosineValue q r.data)))) := by
  intro s
  induction s with
  | nil => intro _; rfl
  | cons v vs ih =>
    intro h
    have hvs : ∀ r ∈ vs, matchesFilters r f = true →
        (∃ mp, r.meta = some mp) ∧ ∃ x, CosineSimilarity q r.data = .ok x :=
      fun r hr => h r (List.mem_cons_of_mem v hr)
    by_cases hm : matchesFilters v f = true
    · obtain ⟨⟨mp, hmp⟩, ⟨x, hx⟩⟩ := h v (List.mem_cons_self v vs) hm
      have hxval : x = cosineValue q v.data := CosineSimilarity_ok_inv q v.data x hx
      simp only [scanVectors, hm, if_true, hx, hmp, ih hvs]
      rw [List.map_cons, List.filter_cons_of_pos (by simp [hm]), List.map_cons]
      have hupd : updScan q f v =
          ⟨v.id, v.data, some (metaSet mp "similarity" (format6 x))⟩ := by
        unfold updScan
        rw [if_pos hm, hmp, hxval]
        rfl
      rw [hupd, hxval]
    · have hupd : updScan q f v = v := by
        unfold updScan
        rw [if_neg hm]
      simp only [scanVectors, hm, Bool.false_eq_true, if_false, ih hvs]
      rw [List.map_cons, List.filter_cons_of_neg (by simp [hm])]
      rw [hupd]

/-- A scan that returned `ok` only ever saw healthy matching records: each
had non-nil metadata and a succeeding similarity computation. -/
theorem scanVectors_ok_health (q : List ℝ) (f : List (String × String)) :
    ∀ (s s2 : List Vector) (res : List (Vector × ℝ)),
      scanVectors q f s = (s2, .ok res) →
      ∀ r ∈ s, matchesFilters r f = true →
        (∃ mp, r.meta = some mp) ∧ ∃ x, CosineSimilarity q r.data = .ok x := by
  intro s
  induction s with
  | nil => intro s2 res _ r hr; simp at hr
  | cons v vs ih =>
    intro s2 res h r hr
    by_cases hm : matchesFilters v f = true
    · simp only [scanVectors, hm, if_true] at h
      cases hx : CosineSimilarity q v.data with
      | error m => rw [hx] at h; cases h
      | ok sim =>
        rw [hx] at h
        cases hmp : v.meta with
        | none => rw [hmp] at h; cases h
        | some mp =>
          rw [hmp] at h
          rcases hrec : scanVectors q f vs with ⟨vs2, r2⟩
          rw [hrec] at h
          cases r2 with
          | ok res2 =>
            rcases List.mem_cons.mp hr with rfl | hr
            · exact fun _ => ⟨⟨mp, hmp⟩, ⟨sim, hx⟩⟩
            · exact ih vs2 res2 hrec r hr
          | err e => cases h
          | panicked p => cases h
    · simp only [scanVectors, hm, if_false] at h
      rcases hrec : scanVectors q f vs with ⟨vs2, r2⟩
      rw [hrec] at h
      rcases List.mem_cons.mp hr with rfl | hr
      · intro hm2; exact absurd hm2 hm
      · have h2 : r2 = GoResult.ok res := congrArg Prod.snd h
        subst h2
        exact ih vs2 res hrec r hr

theorem searchShard_snd_ok (s : List Vector) (q : List ℝ) (n : ℤ)
    (f : List (String × String)) (out : List Vector)
    (h : (searchShard s q n f).2 = .ok out) :
    ∃ res, scanVectors q f s = ((searchShard s q n f).1, .ok res) := by
  unfold searchShard at h ⊢
  rcases hs : scanVectors q f s with ⟨s2, r⟩
  rw [hs] at h
  cases r with
  | ok res => exact ⟨res, rfl⟩
  | err e => cases h
  | panicked p => cases h

/-! ### C10: search mutates stored metadata -/

/-- C10: a successful search is not read-only. For every stored record `r`
that passes the filters (in a well-formed store: shards match the count,
records sit in their routed shard, ids are unique per shard), the stored
record afterwards is `updScan q f r` — its metadata gained a `similarity`
key holding the formatted score — and this is exactly what a subsequent
`getVector r.id` returns; the added key itself matches a later
`similarity`-keyed filter. -/
theorem C10_search_mutates_metadata (db db2 : VectorDB) (q : List ℝ) (n : ℤ)
    (f : List (String × String)) (out : List Vector) (i : ℕ) (r : Vector)
    (hplace : ∀ (j : ℕ) (hj : j < db.shards.length), ∀ w ∈ db.shards.get ⟨j, hj⟩,
      hashID db.shardCount w.id = j)
    (hnodup : ∀ (j : ℕ) (hj : j < db.shards.length),
      ((db.shards.get ⟨j, hj⟩).map Vector.id).Nodup)
    (hi : i < db.shards.length) (hr : r ∈ db.shards.get ⟨i, hi⟩)
    (hm : matchesFilters r f = true)
    (hrun : SearchVectors db q n f = (db2, .ok out)) :
    GetVector db2 r.id = .ok (updScan q f r) ∧
    metaGet (updScan q f r).meta "similarity" = format6 (cosineValue q r.data) ∧
    matchesFilters (updScan q f r) [("similarity", format6 (cosineValue q r.data))] = true := by
  have hmeta2 : (updScan q f r).meta =
      some (metaSet (r.meta.getD []) "similarity" (format6 (cosineValue q r.data))) := by
    unfold updScan
    rw [if_pos hm]
  have hget2 : metaGet (updScan q f r).meta "similarity" =
      format6 (cosineValue q r.data) := by
    rw [hmeta2, metaGet_metaSet]
  refine ⟨?_, hget2, by simp [matchesFilters, hget2]⟩
  simp only [SearchVectors] at hrun
  cases hP : (db.shards.map (fun s => searchShard s q n f)).findSome?
      (fun p => panicOf p.2) with
  | some m => rw [hP] at hrun; exact absurd (congrArg Prod.snd hrun) (by simp)
  | none =>
  rw [hP] at hrun
  cases hE : (db.shards.map (fun s => searchShard s q n f)).findSome?
      (fun p => errOf p.2) with
  | some m => rw [hE] at hrun; exact absurd (congrArg Prod.snd hrun) (by simp)
  | none =>
  rw [hE] at hrun
  have hdb2 : db2 = ⟨(db.shards.map (fun s => searchShard s q n f)).map Prod.fst,
      db.shardCount⟩ := by
    split_ifs at hrun with h1 h2
    · exact absurd (congrArg Prod.snd hrun) (by simp)
    · exact (congrArg Prod.fst hrun).symm
    · exact (congrArg Prod.fst hrun).symm
  have hallok : ∀ p ∈ db.shards.map (fun s => searchShard s q n f), ∃ l, p.2 = .ok l := by
    intro p hp
    have h1 := List.findSome?_eq_none_iff.mp hP p hp
    have h2 := List.findSome?_eq_none_iff.mp hE p hp
    cases hp2 : p.2 with
    | ok l => exact ⟨l, rfl⟩
    | err e => rw [hp2] at h2; exact absurd h2 (by simp [errOf])
    | panicked m => rw [hp2] at h1; exact absurd h1 (by simp [panicOf])
  have hsi : searchShard (db.shards.get ⟨i, hi⟩) q n f ∈
      db.shards.map (fun s => searchShard s q n f) :=
    List.mem_map_of_mem _ (db.shards.get_mem i hi)
  obtain ⟨l, hl⟩ := hallok _ hsi
  obtain ⟨res, hscan⟩ := searchShard_snd_ok _ q n f l hl
  have hhealth := scanVectors_ok_health q f _ _ _ hscan
  have heq := scanVectors_eq q f (db.shards.get ⟨i, hi⟩) hhealth
  have hfst : (searchShard (db.shards.get ⟨i, hi⟩) q n f).1 =
      (db.shards.get ⟨i, hi⟩).map (updScan q f) := by
    rw [hscan] at heq
    exact congrArg Prod.fst heq
  have hroute : hashID db.shardCount r.id = i := hplace i hi r hr
  rw [hdb2]
  unfold GetVector
  show (match ((((db.shards.map (fun s => searchShard s q n f)).map Prod.fst).getD
      (hashID db.shardCount r.id) []).find? (fun w => w.id == r.id)) with
    | none => Except.error "vector not found"
    | some v => Except.ok v) = Except.ok (updScan q f r)
  have hshard : ((db.shards.map (fun s => searchShard s q n f)).map Prod.fst).getD
      (hashID db.shardCount r.id) [] = (db.shards.get ⟨i, hi⟩).map (updScan q f) := by
    rw [hroute, List.map_map, List.getD_eq_getElem?_getD, List.getElem?_map,
      List.getElem?_eq_getElem hi]
    show Option.getD (some ((Prod.fst ∘ fun s => searchShard s q n f)
      (db.shards.get ⟨i, hi⟩))) [] = _
    rw [Option.getD_some]
    exact hfst
  rw [hshard, find?_map_of_id (updScan q f) (updScan_id q f) r.id,
    find?_eq_self_of_nodup _ (hnodup i hi) r hr]
  rfl

/-- Witness for C10 at a concrete store: the single record `a` (empty non-nil
metadata) matches the empty filter set of a successful search; afterwards
`getVector a` returns the record with the formatted similarity stored in its
metadata, and that entry matches a similarity filter. -/
theorem C10_witness :
    GetVector ⟨[[⟨"a", [1], some [("similarity", "1.000000")]⟩]], 1⟩ "a" =
      .ok (updScan [(1:ℝ)] [] ⟨"a", [1], some []⟩) ∧
    metaGet (updScan [(1:ℝ)] [] ⟨"a", [1], some []⟩).meta "similarity" =
      format6 (cosineValue [(1:ℝ)] [1]) ∧
    matchesFilters (updScan [(1:ℝ)] [] ⟨"a", [1], some []⟩)
      [("similarity", format6 (cosineValue [(1:ℝ)] [1]))] = true := by
  have h := C10_search_mutates_metadata ⟨[[⟨"a", [1], some []⟩]], 1⟩
    ⟨[[⟨"a", [1], some [("similarity", "1.000000")]⟩]], 1⟩ [(1:ℝ)] 1 []
    [⟨"a", [1], some [("similarity", "1.000000")]⟩] 0 ⟨"a", [1], some []⟩
    (by
      intro j hj w hw
      have hj0 : j = 0 := Nat.lt_one_iff.mp (by simpa using hj)
      subst hj0
      simp only [List.get] at hw
      rcases List.mem_singleton.mp hw with rfl
      decide)
    (by
      intro j hj
      have hj0 : j = 0 := Nat.lt_one_iff.mp (by simpa using hj)
      subst hj0
      simp)
    (by norm_num) (by simp [List.get]) rfl
    (search_db_single [] rfl)
  exact h

/-! ### Generic facts about the descending key sort -/

section SortLemmas

variable {α : Type} {κ : Type} [LinearOrder κ] (key : α → κ)

theorem insertDesc_perm (a : α) (l : List α) : (insertDesc key a l).Perm (a :: l) := by
  induction l with
  | nil => exact List.Perm.refl _
  | cons b bs ih =>
    unfold insertDesc
    by_cases h : key b < key a
    · rw [if_pos h]
    · rw [if_neg h]
      exact (ih.cons b).trans (List.Perm.swap a b bs)

theorem sortDesc_perm (l : List α) : (sortDesc key l).Perm l := by
  induction l with
  | nil => exact List.Perm.refl _
  | cons a as ih =>
    exact (insertDesc_perm key a (sortDesc key as)).trans (ih.cons a)

theorem insertDesc_sorted (a : α) (l : List α)
    (h : l.Pairwise (fun x y => key y ≤ key x)) :
    (insertDesc key a l).Pairwise (fun x y => key y ≤ key x) := by
  induction l with
  | nil => exact List.pairwise_singleton _ a
  | cons b bs ih =>
    obtain ⟨hb, hbs⟩ := List.pairwise_cons.mp h
    unfold insertDesc
    by_cases hba : key b < key a
    · rw [if_pos hba]
      refine List.pairwise_cons.mpr ⟨?_, h⟩
      intro y hy
      rcases List.mem_cons.mp hy with rfl | hy
      · exact hba.le
      · exact (hb y hy).trans hba.le
    · rw [if_neg hba]
      refine List.pairwise_cons.mpr ⟨?_, ih hbs⟩
      intro y hy
      rcases List.mem_cons.mp ((insertDesc_perm key a bs).mem_iff.mp hy) with rfl | hy
      · exact not_lt.mp hba
      · exact hb y hy

theorem sortDesc_sorted (l : List α) :
    (sortDesc key l).Pairwise (fun x y => key y ≤ key x) := by
  induction l with
  | nil => exact List.Pairwise.nil
  | cons a as ih => exact insertDesc_sorted key a (sortDesc key as) ih

theorem sorted_key_perm_eq :
    ∀ l₁ l₂ : List α, List.Perm l₁ l₂ →
      l₁.Pairwise (fun x y => key y ≤ key x) →
      l₂.Pairwise (fun x y => key y ≤ key x) →
      l₁.Pairwise (fun x y => key x ≠ key y) → l₁ = l₂ := by
  intro l₁
  induction l₁ with
  | nil => intro l₂ hp _ _ _; exact hp.nil_eq
  | cons a t₁ ih =>
    intro l₂ hp hs₁ hs₂ hd
    cases l₂ with
    | nil => exact absurd hp.eq_nil (by simp)
    | cons b t₂ =>
      obtain ⟨ha1, hs₁t⟩ := List.pairwise_cons.mp hs₁
      obtain ⟨hb1, hs₂t⟩ := List.pairwise_cons.mp hs₂
      obtain ⟨hd1, hdt⟩ := List.pairwise_cons.mp hd
      have hab : a = b := by
        by_contra hne
        have hbmem : b ∈ a :: t₁ := hp.mem_iff.mpr (List.mem_cons_self b t₂)
        have hamem : a ∈ b :: t₂ := hp.mem_iff.mp (List.mem_cons_self a t₁)
        have hbt : b ∈ t₁ := by
          rcases List.mem_cons.mp hbmem with rfl | hx
          · exact absurd rfl hne
          · exact hx
        have hat : a ∈ t₂ := by
          rcases List.mem_cons.mp hamem with rfl | hx
          · exact absurd rfl hne
          · exact hx
        have h1 : key b ≤ key a := ha1 b hbt
        have h2 : key a ≤ key b := hb1 a hat
        exact hd1 b hbt (le_antisymm h2 h1)
      subst hab
      have hpt : List.Perm t₁ t₂ := hp.cons_inv
      rw [ih t₂ hpt hs₁t hs₂t hdt]

theorem sortDesc_congr_perm (l₁ l₂ : List α) (h : List.Perm l₁ l₂)
    (hd : l₁.Pairwise (fun x y => key x ≠ key y)) :
    sortDesc key l₁ = sortDesc key l₂ := by
  apply sorted_key_perm_eq key
  · exact (sortDesc_perm key l₁).trans (h.trans (sortDesc_perm key l₂).symm)
  · exact sortDesc_sorted key l₁
  · exact sortDesc_sorted key l₂
  · exact (List.Perm.pairwise_iff (fun hxy => Ne.symm hxy)
      (sortDesc_perm key l₁)).mpr hd

theorem insertDesc_key_congr {κ2 : Type} [LinearOrder κ2] (key2 : α → κ2) (a : α) :
    ∀ s : List α, (∀ b ∈ s, (key b < key a ↔ key2 b < key2 a)) →
      insertDesc key a s = insertDesc key2 a s := by
  intro s
  induction s with
  | nil => intro _; rfl
  | cons b bs ih =>
    intro h
    unfold insertDesc
    by_cases hb : key b < key a
    · rw [if_pos hb, if_pos ((h b (List.mem_cons_self b bs)).mp hb)]
    · rw [if_neg hb, if_neg (fun hc => hb ((h b (List.mem_cons_self b bs)).mpr hc)),
        ih (fun c hc => h c (List.mem_cons_of_mem b hc))]

theorem sortDesc_key_congr {κ2 : Type} [LinearOrder κ2] (key2 : α → κ2) :
    ∀ l : List α, (∀ x ∈ l, ∀ y ∈ l, (key x < key y ↔ key2 x < key2 y)) →
      sortDesc key l = sortDesc key2 l := by
  intro l
  induction l with
  | nil => intro _; rfl
  | cons a as ih =>
    intro h
    show insertDesc key a (sortDesc key as) = insertDesc key2 a (sortDesc key2 as)
    rw [ih (fun x hx y hy => h x (List.mem_cons_of_mem a hx) y (List.mem_cons_of_mem a hy))]
    apply insertDesc_key_congr
    intro b hb
    have hbas : b ∈ as := (sortDesc_perm key2 as).mem_iff.mp hb
    exact h b (List.mem_cons_of_mem a hbas) a (List.mem_cons_self a as)

theorem insertDesc_map {β : Type} (f : β → α) (key' : β → κ) (a : β) :
    ∀ s : List β, key (f a) = key' a → (∀ x ∈ s, key (f x) = key' x) →
      insertDesc key (f a) (s.map f) = (insertDesc key' a s).map f := by
  intro s
  induction s with
  | nil => intro _ _; rfl
  | cons b bs ih =>
    intro ha h
    rw [List.map_cons]
    unfold insertDesc
    rw [h b (List.mem_cons_self b bs), ha]
    by_cases hb : key' b < key' a
    · rw [if_pos hb, if_pos hb, List.map_cons, List.map_cons]
    · rw [if_neg hb, if_neg hb, List.map_cons,
        ih ha (fun x hx => h x (List.mem_cons_of_mem b hx))]

theorem sortDesc_map {β : Type} (f : β → α) (key' : β → κ) :
    ∀ l : List β, (∀ x ∈ l, key (f x) = key' x) →
      sortDesc key (l.map f) = (sortDesc key' l).map f := by
  intro l
  induction l with
  | nil => intro _; rfl
  | cons a as ih =>
    intro h
    rw [List.map_cons]
    show insertDesc key (f a) (sortDesc key (as.map f)) = _
    rw [ih (fun x hx => h x (List.mem_cons_of_mem a hx))]
    show _ = (insertDesc key' a (sortDesc key' as)).map f
    apply insertDesc_map key f key' a (sortDesc key' as) (h a (List.mem_cons_self a as))
    intro x hx
    exact h x (List.mem_cons_of_mem a ((sortDesc_perm key' as).mem_iff.mp hx))

theorem take_insertDesc (d : α) :
    ∀ (s : List α) (N : ℕ), s.Pairwise (fun x y => key y ≤ key x) →
      N ≤ s.countP (fun c => decide (key d < key c)) →
      (insertDesc key d s).take N = s.take N := by
  intro s
  induction s with
  | nil =>
    intro N _ hN
    have : N = 0 := Nat.le_zero.mp (by simpa using hN)
    subst this
    rfl
  | cons c cs ih =>
    intro N hs hN
    obtain ⟨hc1, hcs⟩ := List.pairwise_cons.mp hs
    unfold insertDesc
    by_cases hc : key c < key d
    · have hz : (c :: cs).countP (fun c => decide (key d < key c)) = 0 := by
        rw [List.countP_eq_zero]
        intro a ha
        rcases List.mem_cons.mp ha with rfl | ha
        · simp [asymm hc]
        · have haa : key a < key d := lt_of_le_of_lt (hc1 a ha) hc
          simp [asymm haa]
      rw [hz] at hN
      have : N = 0 := Nat.le_zero.mp hN
      subst this
      rw [if_pos hc]
      rfl
    · rw [if_neg hc]
      cases N with
      | zero => rfl
      | succ M =>
        rw [List.take_succ_cons, List.take_succ_cons,
          ih M hcs ?_]
        rw [List.countP_cons] at hN
        by_cases hdc : (decide (key d < key c)) = true
        · rw [if_pos hdc] at hN
          omega
        · rw [if_neg hdc] at hN
          omega

theorem take_sortDesc_extra (N : ℕ) :
    ∀ (extra l : List α),
      (∀ d ∈ extra, N ≤ l.countP (fun c => decide (key d < key c))) →
      (sortDesc key (extra ++ l)).take N = (sortDesc key l).take N := by
  intro extra
  induction extra with
  | nil => intro l _; rfl
  | cons d ds ih =>
    intro l h
    show (insertDesc key d (sortDesc key (ds ++ l))).take N = _
    rw [take_insertDesc key d (sortDesc key (ds ++ l)) N
      (sortDesc_sorted key (ds ++ l)) ?_]
    · exact ih l (fun e he => h e (List.mem_cons_of_mem d he))
    · rw [(sortDesc_perm key (ds ++ l)).countP_eq, List.countP_append]
      have := h d (List.mem_cons_self d ds)
      omega

theorem sorted_take_gt (s : List α)
    (hs : s.Pairwise (fun x y => key y ≤ key x))
    (hd : s.Pairwise (fun x y => key x ≠ key y)) (N : ℕ) (d : α)
    (hdm : d ∈ s.drop N) : ∀ c ∈ s.take N, key d < key c := by
  intro c hc
  have h1 : (s.take N ++ s.drop N).Pairwise (fun x y => key y ≤ key x) := by
    rw [List.take_append_drop]; exact hs
  have h2 : (s.take N ++ s.drop N).Pairwise (fun x y => key x ≠ key y) := by
    rw [List.take_append_drop]; exact hd
  have hle : key d ≤ key c := (List.pairwise_append.mp h1).2.2 c hc d hdm
  have hne : key c ≠ key d := (List.pairwise_append.mp h2).2.2 c hc d hdm
  exact lt_of_le_of_ne hle (Ne.symm hne)

theorem flatten_two_parts (f g : List α → List α) :
    ∀ ls : List (List α), (∀ li ∈ ls, (f li ++ g li).Perm li) →
      ((ls.map f).flatten ++ (ls.map g).flatten).Perm ls.flatten := by
  intro ls
  induction ls with
  | nil => intro _; exact List.Perm.refl _
  | cons a as ih =>
    intro h
    rw [List.map_cons, List.map_cons, List.flatten_cons, List.flatten_cons,
      List.flatten_cons, List.append_assoc]
    have h1 : ((as.map f).flatten ++ (g a ++ (as.map g).flatten)).Perm
        (g a ++ ((as.map f).flatten ++ (as.map g).flatten)) :=
      List.perm_append_comm_assoc _ _ _
    refine ((h1.append_left (f a)).trans ?_)
    rw [← List.append_assoc]
    exact (h a (List.mem_cons_self a as)).append
      (ih (fun li hli => h li (List.mem_cons_of_mem a hli)))

/-- The distributed top-K correctness argument: merging each block's top `N`
(by a descending key sort) and taking the global top `N` gives the same list
as the top `N` of the whole collection, provided keys are pairwise distinct. -/
theorem take_sortDesc_flatten (N : ℕ) (ls : List (List α))
    (hd : ls.flatten.Pairwise (fun x y => key x ≠ key y)) :
    (sortDesc key ((ls.map (fun li => (sortDesc key li).take N)).flatten)).take N =
      (sortDesc key ls.flatten).take N := by
  have hparts : ((ls.map (fun li => (sortDesc key li).take N)).flatten ++
      (ls.map (fun li => (sortDesc key li).drop N)).flatten).Perm ls.flatten := by
    apply flatten_two_parts
    intro li _
    rw [List.take_append_drop]
    exact sortDesc_perm key li
  have hperm : ls.flatten.Perm
      ((ls.map (fun li => (sortDesc key li).drop N)).flatten ++
        (ls.map (fun li => (sortDesc key li).take N)).flatten) :=
    (hparts.symm).trans (List.perm_append_comm)
  have hcount : ∀ d ∈ (ls.map (fun li => (sortDesc key li).drop N)).flatten,
      N ≤ ((ls.map (fun li => (sortDesc key li).take N)).flatten).countP
        (fun c => decide (key d < key c)) := by
    intro d hdmem
    rw [List.mem_flatten] at hdmem
    obtain ⟨dl, hdl, hd2⟩ := hdmem
    rw [List.mem_map] at hdl
    obtain ⟨li, hli, rfl⟩ := hdl
    have hdi : li.Pairwise (fun x y => key x ≠ key y) :=
      List.Pairwise.sublist (List.sublist_flatten_of_mem hli) hd
    have hdsort : (sortDesc key li).Pairwise (fun x y => key x ≠ key y) :=
      (List.Perm.pairwise_iff (fun hxy => Ne.symm hxy) (sortDesc_perm key li)).mpr hdi
    have hgt : ∀ c ∈ (sortDesc key li).take N, key d < key c :=
      sorted_take_gt key (sortDesc key li) (sortDesc_sorted key li) hdsort N d hd2
    have hlen : ((sortDesc key li).take N).length = N := by
      have hNlt : N < (sortDesc key li).length := by
        by_contra hcon
        rw [List.drop_eq_nil_of_le (Nat.le_of_not_lt hcon)] at hd2
        simp at hd2
      rw [List.length_take]
      omega
    have hfull : ((sortDesc key li).take N).countP
        (fun c => decide (key d < key c)) = N := by
      rw [List.countP_eq_length.mpr (fun a ha => by simpa using hgt a ha), hlen]
    rw [List.countP_flatten]
    have hmem2 : ((sortDesc key li).take N).countP (fun c => decide (key d < key c)) ∈
        (ls.map (fun li => (sortDesc key li).take N)).map
          (List.countP (fun c => decide (key d < key c))) := by
      rw [List.map_map]
      exact List.mem_map_of_mem _ hli
    have := List.single_le_sum (l := (ls.map (fun li => (sortDesc key li).take N)).map
      (List.countP (fun c => decide (key d < key c)))) (fun x _ => Nat.zero_le x) _ hmem2
    omega
  rw [sortDesc_congr_perm key ls.flatten _ hperm hd]
  exact (take_sortDesc_extra key N _ _ hcount).symm

end SortLemmas

/-! ### Order properties of the fixed-point formatting -/

theorem digitChar_lt_iff : ∀ a < 10, ∀ b < 10, (digitChar a < digitChar b ↔ a < b) := by
  decide

theorem digitChar_inj : ∀ a < 10, ∀ b < 10, (digitChar a = digitChar b ↔ a = b) := by
  decide

theorem repr_single : ∀ d < 10, Nat.repr d = String.mk [digitChar d] := by
  decide

theorem lex_digits_of_lt (k : ℕ) : ∀ n m : ℕ, n < 10 ^ k → m < 10 ^ k → n < m →
    List.Lex (fun c1 c2 : Char => c1 < c2) ((natDigitsFixed k n).map digitChar)
      ((natDigitsFixed k m).map digitChar) := by
  induction k with
  | zero =>
    intro n m hn hm hnm
    omega
  | succ k ih =>
    intro n m hn hm hnm
    have hP : 0 < 10 ^ k := pow_pos (by norm_num) k
    have hq1 : n / 10 ^ k < 10 := by
      rw [Nat.div_lt_iff_lt_mul hP]
      calc n < 10 ^ (k + 1) := hn
        _ = 10 * 10 ^ k := by ring
    have hq2 : m / 10 ^ k < 10 := by
      rw [Nat.div_lt_iff_lt_mul hP]
      calc m < 10 ^ (k + 1) := hm
        _ = 10 * 10 ^ k := by ring
    have h1 : n = n / 10 ^ k * 10 ^ k + n % 10 ^ k := by
      rw [Nat.mul_comm]
      exact (Nat.div_add_mod n (10 ^ k)).symm
    have h2 : m = m / 10 ^ k * 10 ^ k + m % 10 ^ k := by
      rw [Nat.mul_comm]
      exact (Nat.div_add_mod m (10 ^ k)).symm
    have hqle : n / 10 ^ k ≤ m / 10 ^ k := Nat.div_le_div_right hnm.le
    simp only [natDigitsFixed, List.map_cons]
    rcases eq_or_lt_of_le hqle with hq | hq
    · rw [hq]
      apply List.Lex.cons
      apply ih (n % 10 ^ k) (m % 10 ^ k) (Nat.mod_lt _ hP) (Nat.mod_lt _ hP)
      rw [h1, h2, hq] at hnm
      exact Nat.lt_of_add_lt_add_left hnm
    · exact List.Lex.rel ((digitChar_lt_iff _ hq1 _ hq2).mpr hq)

theorem lex_digits_iff (k : ℕ) (n m : ℕ) (hn : n < 10 ^ k) (hm : m < 10 ^ k) :
    List.Lex (fun c1 c2 : Char => c1 < c2) ((natDigitsFixed k n).map digitChar)
      ((natDigitsFixed k m).map digitChar) ↔ n < m := by
  constructor
  · intro h
    rcases lt_trichotomy n m with hlt | heq | hgt
    · exact hlt
    · subst heq
      exact absurd h (IsAsymm.asymm _ _ h)
    · exact absurd (lex_digits_of_lt k m n hm hn hgt) (IsAsymm.asymm _ _ h)
  · exact lex_digits_of_lt k n m hn hm

theorem lex_cons_middle (c a1 a2 : Char) (l1 l2 : List Char) :
    List.Lex (fun c1 c2 : Char => c1 < c2) (a1 :: c :: l1) (a2 :: c :: l2) ↔
      List.Lex (fun c1 c2 : Char => c1 < c2) (a1 :: l1) (a2 :: l2) := by
  constructor
  · intro h
    cases h with
    | rel hr => exact List.Lex.rel hr
    | cons ht => exact List.Lex.cons (List.Lex.cons_iff.mp ht)
  · intro h
    cases h with
    | rel hr => exact List.Lex.rel hr
    | cons ht => exact List.Lex.cons (List.Lex.cons_iff.mpr ht)

theorem fmtNat_toList (x : ℕ) (hx : x < 10000000) :
    (fmtNat x).toList = digitChar (x / 1000000) :: '.' ::
      (natDigitsFixed 6 (x % 1000000)).map digitChar := by
  unfold fmtNat
  rw [repr_single (x / 1000000) (by omega)]
  simp [String.toList, String.data_append]

theorem fmtNat_lt_iff (n m : ℕ) (hn : n < 10000000) (hm : m < 10000000) :
    (fmtNat n < fmtNat m) ↔ n < m := by
  rw [String.lt_iff_toList_lt, fmtNat_toList n hn, fmtNat_toList m hm]
  show List.Lex (fun c1 c2 : Char => c1 < c2) _ _ ↔ _
  rw [lex_cons_middle]
  have hn6 : n % 1000000 < 10 ^ 6 := by
    have := Nat.mod_lt n (y := 1000000) (by norm_num)
    omega
  have hm6 : m % 1000000 < 10 ^ 6 := by
    have := Nat.mod_lt m (y := 1000000) (by norm_num)
    omega
  have hdig : ∀ x : ℕ, x < 10000000 →
      digitChar (x / 1000000) :: (natDigitsFixed 6 (x % 1000000)).map digitChar =
        (natDigitsFixed 7 x).map digitChar := by
    intro x hx
    have hstep : natDigitsFixed 7 x = x / 10 ^ 6 :: natDigitsFixed 6 (x % 10 ^ 6) := rfl
    rw [hstep, List.map_cons]
    norm_num
  rw [hdig n hn, hdig m hm]
  exact lex_digits_iff 7 n m (by omega) (by omega)

theorem round_nonneg_real (x : ℝ) (h : 0 ≤ x) : 0 ≤ round x := by
  rw [round_eq]
  exact Int.floor_nonneg.mpr (by linarith)

theorem round_mono_le (x y : ℝ) (h : x ≤ y) : round x ≤ round y := by
  rw [round_eq, round_eq]
  exact Int.floor_le_floor (by linarith)

theorem round_micro_le_million (x : ℝ) (h : x ≤ 1) :
    (round (x * 1000000)).toNat ≤ 1000000 := by
  have h1 : round (x * 1000000) ≤ round ((1000000 : ℕ) : ℝ) :=
    round_mono_le _ _ (by push_cast; linarith)
  rw [round_natCast] at h1
  omega

theorem format6_nonneg_eq_fmt (x : ℝ) (h : 0 ≤ x) :
    format6 x = fmtNat (round (x * 1000000)).toNat := by
  unfold format6
  rw [if_neg (not_lt.mpr h)]

theorem format6_lt_iff (x y : ℝ) (hx0 : 0 ≤ x) (hx1 : x ≤ 1) (hy0 : 0 ≤ y)
    (hy1 : y ≤ 1) :
    (format6 x < format6 y) ↔ round (x * 1000000) < round (y * 1000000) := by
  rw [format6_nonneg_eq_fmt x hx0, format6_nonneg_eq_fmt y hy0,
    fmtNat_lt_iff _ _ (by have := round_micro_le_million x hx1; omega)
      (by have := round_micro_le_million y hy1; omega)]
  have h1 : 0 ≤ round (x * 1000000) := round_nonneg_real _ (by positivity)
  have h2 : 0 ≤ round (y * 1000000) := round_nonneg_real _ (by positivity)
  omega

theorem lt_iff_format6_lt (x y : ℝ) (hx0 : 0 ≤ x) (hx1 : x ≤ 1) (hy0 : 0 ≤ y)
    (hy1 : y ≤ 1) (hne : format6 x ≠ format6 y) :
    (x < y ↔ format6 x < format6 y) := by
  rw [format6_lt_iff x y hx0 hx1 hy0 hy1]
  constructor
  · intro h
    rcases lt_or_eq_of_le (round_mono_le (x * 1000000) (y * 1000000)
      (by nlinarith)) with hr | hr
    · exact hr
    · exact absurd (by rw [format6_nonneg_eq_fmt x hx0, format6_nonneg_eq_fmt y hy0, hr]) hne
  · intro h
    by_contra hcon
    have := round_mono_le (y * 1000000) (x * 1000000) (by nlinarith [not_lt.mp hcon])
    omega

/-! ### The success path of the full search pipeline -/

theorem searchShard_eq (s : List Vector) (q : List ℝ) (n : ℤ)
    (f : List (String × String))
    (h : ∀ r ∈ s, matchesFilters r f = true →
      (∃ mp, r.meta = some mp) ∧ ∃ x, CosineSimilarity q r.data = .ok x) :
    searchShard s q n f = (s.map (updScan q f),
      .ok (((sortDesc Prod.snd ((s.filter (fun r => matchesFilters r f)).map
        (fun r => (updScan q f r, cosineValue q r.data)))).take n.toNat).map Prod.fst)) := by
  unfold searchShard
  rw [scanVectors_eq q f s h]

/-- On a store whose every matching record is healthy (non-nil metadata and a
succeeding similarity computation) and a nonnegative `topN`, `SearchVectors`
succeeds: the store's shards all get their matching records' metadata
updated, and the output is the string-sorted merge of the per-shard numeric
top-`topN` lists, truncated to `topN`. -/
theorem SearchVectors_ok_eq (db : VectorDB) (q : List ℝ) (n : ℤ) (hn : 0 ≤ n)
    (f : List (String × String))
    (h : ∀ s ∈ db.shards, ∀ r ∈ s, matchesFilters r f = true →
      (∃ mp, r.meta = some mp) ∧ ∃ x, CosineSimilarity q r.data = .ok x) :
    SearchVectors db q n f = (⟨db.shards.map (fun s => s.map (updScan q f)), db.shardCount⟩,
      .ok ((sortDesc (fun v => metaGet v.meta "similarity")
        ((db.shards.map (fun s =>
          ((sortDesc Prod.snd ((s.filter (fun r => matchesFilters r f)).map
            (fun r => (updScan q f r, cosineValue q r.data)))).take n.toNat).map
              Prod.fst)).flatten)).take n.toNat)) := by
  have hmap : db.shards.map (fun s => searchShard s q n f) =
      db.shards.map (fun s => (s.map (updScan q f),
        GoResult.ok (((sortDesc Prod.snd ((s.filter (fun r => matchesFilters r f)).map
          (fun r => (updScan q f r, cosineValue q r.data)))).take n.toNat).map
            Prod.fst))) :=
    List.map_congr_left (fun s hs => searchShard_eq s q n f (h s hs))
  have hP : (db.shards.map (fun s => searchShard s q n f)).findSome?
      (fun p => panicOf p.2) = none := by
    rw [hmap, List.findSome?_eq_none_iff]
    intro x hx
    rw [List.mem_map] at hx
    obtain ⟨s, hs, rfl⟩ := hx
    rfl
  have hE : (db.shards.map (fun s => searchShard s q n f)).findSome?
      (fun p => errOf p.2) = none := by
    rw [hmap, List.findSome?_eq_none_iff]
    intro x hx
    rw [List.mem_map] at hx
    obtain ⟨s, hs, rfl⟩ := hx
    rfl
  simp only [SearchVectors]
  rw [hP, hE, hmap, List.map_map, List.map_map]
  have hfst : (Prod.fst ∘ fun s : List Vector => (s.map (updScan q f),
      GoResult.ok (((sortDesc Prod.snd ((s.filter (fun r => matchesFilters r f)).map
        (fun r => (updScan q f r, cosineValue q r.data)))).take n.toNat).map
          Prod.fst))) = fun s : List Vector => s.map (updScan q f) := rfl
  have hres : ((fun p => resultsOf p.2) ∘ fun s : List Vector => (s.map (updScan q f),
      GoResult.ok (((sortDesc Prod.snd ((s.filter (fun r => matchesFilters r f)).map
        (fun r => (updScan q f r, cosineValue q r.data)))).take n.toNat).map
          Prod.fst))) = fun s : List Vector =>
    ((sortDesc Prod.snd ((s.filter (fun r => matchesFilters r f)).map
      (fun r => (updScan q f r, cosineValue q r.data)))).take n.toNat).map Prod.fst := rfl
  rw [hfst, hres]
  set sorted := sortDesc (fun v => metaGet v.meta "similarity")
    ((db.shards.map (fun s =>
      ((sortDesc Prod.snd ((s.filter (fun r => matchesFilters r f)).map
        (fun r => (updScan q f r, cosineValue q r.data)))).take n.toNat).map
          Prod.fst)).flatten) with hsorted
  by_cases hlen : (sorted.length : ℤ) > n
  · rw [if_pos hlen, if_neg (not_lt.mpr hn)]
  · rw [if_neg hlen]
    have : sorted.take n.toNat = sorted := by
      apply List.take_of_length_le
      omega
    rw [this]

/-! ### C1: the distributed search against the brute-force reference -/

/-- C1 amended: on a store with at least one partition in which every record
has non-nil metadata, matches the query's dimension, has nonzero norm (and
the query does too), every similarity is nonnegative, and the 6-digit
formatted similarity strings are pairwise distinct, `searchVectors` with no
filters and positive `topN` succeeds and returns exactly the ids, in order,
of the brute-force scan of all records sorted by descending cosine
similarity and truncated to `topN`. (Without the nonnegativity and
distinctness conditions this fails: the merge phase compares formatted
strings, and Go string order disagrees with numeric order on negative
similarities — see the counterexample.) -/
theorem C1_amended_search_refines_bruteforce (db : VectorDB) (q : List ℝ) (n : ℤ)
    (hn : 0 < n) (_hpart : 0 < db.shards.length)
    (hmeta : ∀ r ∈ db.shards.flatten, ∃ mp, r.meta = some mp)
    (hlen : ∀ r ∈ db.shards.flatten, r.data.length = q.length)
    (hqnz : euclidNorm q ≠ 0)
    (hrnz : ∀ r ∈ db.shards.flatten, euclidNorm r.data ≠ 0)
    (hnonneg : ∀ r ∈ db.shards.flatten, 0 ≤ cosineValue q r.data)
    (hdist : db.shards.flatten.Pairwise
      (fun a b => format6 (cosineValue q a.data) ≠ format6 (cosineValue q b.data))) :
    ∃ out, (SearchVectors db q n []).2 = .ok out ∧
      out.map Vector.id = bruteForceTopIds db q n.toNat := by
  have hqz : dotList q q ≠ 0 := by
    rwa [Ne, ← euclidNorm_eq_zero_iff]
  have hrz : ∀ r ∈ db.shards.flatten, dotList r.data r.data ≠ 0 := by
    intro r hr
    rw [Ne, ← euclidNorm_eq_zero_iff]
    exact hrnz r hr
  have hok : ∀ r ∈ db.shards.flatten,
      CosineSimilarity q r.data = .ok (cosineValue q r.data) :=
    fun r hr => CosineSimilarity_ok q r.data (hlen r hr).symm hqz (hrz r hr)
  have hbound : ∀ r ∈ db.shards.flatten, cosineValue q r.data ≤ 1 :=
    fun r hr => (cosineValue_bounds q r.data hqz (hrz r hr)).2
  have hhealth : ∀ s ∈ db.shards, ∀ r ∈ s, matchesFilters r [] = true →
      (∃ mp, r.meta = some mp) ∧ ∃ x, CosineSimilarity q r.data = .ok x := by
    intro s hs r hr _
    have hrf : r ∈ db.shards.flatten := List.mem_flatten.mpr ⟨s, hs, hr⟩
    exact ⟨hmeta r hrf, ⟨_, hok r hrf⟩⟩
  have hrun := SearchVectors_ok_eq db q n hn.le [] hhealth
  refine ⟨_, by rw [hrun], ?_⟩
  have houts : db.shards.map (fun s =>
      ((sortDesc Prod.snd ((s.filter (fun r => matchesFilters r [])).map
        (fun r => (updScan q [] r, cosineValue q r.data)))).take n.toNat).map
          Prod.fst) =
      (db.shards.map (fun s => s.map (updScan q []))).map
        (fun li => (sortDesc (fun v => cosineValue q v.data) li).take n.toNat) := by
    rw [List.map_map]
    apply List.map_congr_left
    intro s _
    show ((sortDesc Prod.snd ((s.filter (fun r => matchesFilters r [])).map
        (fun r => (updScan q [] r, cosineValue q r.data)))).take n.toNat).map
          Prod.fst =
      (sortDesc (fun v => cosineValue q v.data) (s.map (updScan q []))).take n.toNat
    have hf : s.filter (fun r => matchesFilters r []) = s :=
      List.filter_eq_self.mpr (fun a _ => rfl)
    rw [hf]
    rw [sortDesc_map Prod.snd (fun r => (updScan q [] r, cosineValue q r.data))
      (fun r => cosineValue q r.data) s (fun x _ => rfl)]
    rw [← List.map_take, List.map_map]
    rw [sortDesc_map (fun v => cosineValue q v.data) (updScan q [])
      (fun r => cosineValue q r.data) s (fun x _ => by simp only [updScan_data])]
    rw [← List.map_take]
    rfl
  rw [houts]
  have hflat : (db.shards.map (fun s => s.map (updScan q []))).flatten =
      db.shards.flatten.map (updScan q []) :=
    (List.map_flatten _ _).symm
  have hKdist : (db.shards.map (fun s => s.map (updScan q []))).flatten.Pairwise
      (fun a b => cosineValue q a.data ≠ cosineValue q b.data) := by
    rw [hflat, List.pairwise_map]
    refine hdist.imp ?_
    intro a b hab
    intro heq
    apply hab
    rw [updScan_data, updScan_data] at heq
    rw [heq]
  have hkey := take_sortDesc_flatten (fun v => cosineValue q v.data) n.toNat
    (db.shards.map (fun s => s.map (updScan q []))) hKdist
  have hCmem : ∀ x ∈ ((db.shards.map (fun s => s.map (updScan q []))).map
      (fun li => (sortDesc (fun v => cosineValue q v.data) li).take n.toNat)).flatten,
      x ∈ db.shards.flatten.map (updScan q []) := by
    intro x hx
    rw [List.mem_flatten] at hx
    obtain ⟨l2, hl2, hxl⟩ := hx
    rw [List.mem_map] at hl2
    obtain ⟨li, hli, rfl⟩ := hl2
    have hx2 : x ∈ li :=
      (sortDesc_perm (fun v => cosineValue q v.data) li).mem_iff.mp
        (List.mem_of_mem_take hxl)
    rw [← hflat]
    exact List.mem_flatten.mpr ⟨li, hli, hx2⟩
  have hstr : ∀ x ∈ db.shards.flatten.map (updScan q []),
      metaGet x.meta "similarity" = format6 (cosineValue q x.data) := by
    intro x hx
    rw [List.mem_map] at hx
    obtain ⟨r, hr, rfl⟩ := hx
    have hm : (updScan q [] r).meta = some (metaSet (r.meta.getD []) "similarity"
        (format6 (cosineValue q r.data))) := by
      unfold updScan
      have hc : matchesFilters r [] = true := rfl
      rw [if_pos hc]
    rw [hm, metaGet_metaSet, updScan_data]
  have hK01 : ∀ x ∈ db.shards.flatten.map (updScan q []),
      0 ≤ cosineValue q x.data ∧ cosineValue q x.data ≤ 1 := by
    intro x hx
    rw [List.mem_map] at hx
    obtain ⟨r, hr, rfl⟩ := hx
    rw [updScan_data]
    exact ⟨hnonneg r hr, hbound r hr⟩
  have hfmtdist : (db.shards.flatten.map (updScan q [])).Pairwise
      (fun a b => format6 (cosineValue q a.data) ≠ format6 (cosineValue q b.data)) := by
    rw [List.pairwise_map]
    refine hdist.imp ?_
    intro a b hab
    rw [updScan_data, updScan_data]
    exact hab
  have hcong : sortDesc (fun v => metaGet v.meta "similarity")
      (((db.shards.map (fun s => s.map (updScan q []))).map
        (fun li => (sortDesc (fun v => cosineValue q v.data) li).take n.toNat)).flatten) =
      sortDesc (fun v => cosineValue q v.data)
      (((db.shards.map (fun s => s.map (updScan q []))).map
        (fun li => (sortDesc (fun v => cosineValue q v.data) li).take n.toNat)).flatten) := by
    apply sortDesc_key_congr
    intro x hx y hy
    have hx2 := hCmem x hx
    have hy2 := hCmem y hy
    rw [hstr x hx2, hstr y hy2]
    by_cases hxy : x = y
    · subst hxy
      exact iff_of_false (lt_irrefl _) (lt_irrefl _)
    · have hne : format6 (cosineValue q x.data) ≠ format6 (cosineValue q y.data) :=
        hfmtdist.forall (fun {a b} hab => Ne.symm hab) hx2 hy2 hxy
      exact (lt_iff_format6_lt (cosineValue q x.data) (cosineValue q y.data)
        (hK01 x hx2).1 (hK01 x hx2).2 (hK01 y hy2).1 (hK01 y hy2).2 hne).symm
  rw [hcong, hkey, hflat]
  rw [sortDesc_map (fun v => cosineValue q v.data) (updScan q [])
    (fun r => cosineValue q r.data) db.shards.flatten (fun x _ => by simp only [updScan_data])]
  rw [← List.map_take, List.map_map]
  show List.map (Vector.id ∘ updScan q []) _ = bruteForceTopIds db q n.toNat
  unfold bruteForceTopIds
  apply List.map_congr_left
  intro r _
  exact updScan_id q [] r

theorem sortDesc_pair_of_not_lt {α κ : Type} [LinearOrder κ] (key : α → κ) (a b : α)
    (h : ¬ key b < key a) : sortDesc key [a, b] = [b, a] := by
  show insertDesc key a (insertDesc key b (sortDesc key [])) = [b, a]
  show insertDesc key a [b] = [b, a]
  unfold insertDesc
  rw [if_neg h]
  rfl

theorem sortDesc_pair_of_lt {α κ : Type} [LinearOrder κ] (key : α → κ) (a b : α)
    (h : key b < key a) : sortDesc key [a, b] = [a, b] := by
  show insertDesc key a [b] = [a, b]
  unfold insertDesc
  rw [if_pos h]

theorem cosValue_neg35 : cosineValue [(1:ℝ), 0] [(-3:ℝ), 4] = -(3/5) := by
  have h0 : dotList [(1:ℝ), 0] [(-3:ℝ), 4] = -3 := by norm_num [dotList]
  have h1 : dotList [(1:ℝ), 0] [(1:ℝ), 0] = 1 := by norm_num [dotList]
  have h2 : dotList [(-3:ℝ), 4] [(-3:ℝ), 4] = 25 := by norm_num [dotList]
  unfold cosineValue
  rw [h0, h1, h2, Real.sqrt_one, sqrt_twentyfive]
  norm_num

theorem cosValue_neg45 : cosineValue [(1:ℝ), 0] [(-4:ℝ), 3] = -(4/5) := by
  have h0 : dotList [(1:ℝ), 0] [(-4:ℝ), 3] = -4 := by norm_num [dotList]
  have h1 : dotList [(1:ℝ), 0] [(1:ℝ), 0] = 1 := by norm_num [dotList]
  have h2 : dotList [(-4:ℝ), 3] [(-4:ℝ), 3] = 25 := by norm_num [dotList]
  unfold cosineValue
  rw [h0, h1, h2, Real.sqrt_one, sqrt_twentyfive]
  norm_num

theorem cos_ok_neg35 : CosineSimilarity [(1:ℝ), 0] [(-3:ℝ), 4] = .ok (-(3/5)) := by
  have h1 : dotList [(1:ℝ), 0] [(1:ℝ), 0] = 1 := by norm_num [dotList]
  have h2 : dotList [(-3:ℝ), 4] [(-3:ℝ), 4] = 25 := by norm_num [dotList]
  rw [CosineSimilarity_ok _ _ (by simp) (by rw [h1]; norm_num) (by rw [h2]; norm_num),
    cosValue_neg35]

theorem cos_ok_neg45 : CosineSimilarity [(1:ℝ), 0] [(-4:ℝ), 3] = .ok (-(4/5)) := by
  have h1 : dotList [(1:ℝ), 0] [(1:ℝ), 0] = 1 := by norm_num [dotList]
  have h2 : dotList [(-4:ℝ), 3] [(-4:ℝ), 3] = 25 := by norm_num [dotList]
  rw [CosineSimilarity_ok _ _ (by simp) (by rw [h1]; norm_num) (by rw [h2]; norm_num),
    cosValue_neg45]

theorem format_neg35 : format6 (-(3/5) : ℝ) = "-0.600000" := by
  rw [format6_neg_of_natCast (-(3/5) : ℝ) 600000 (by norm_num) (by norm_num)]
  decide

theorem format_neg45 : format6 (-(4/5) : ℝ) = "-0.800000" := by
  rw [format6_neg_of_natCast (-(4/5) : ℝ) 800000 (by norm_num) (by norm_num)]
  decide

/-- C1 counterexample: one partition holding records `v1` (similarity -0.6 to
the query) and `v2` (similarity -0.8). The reference brute-force order is
`v1, v2`, but `searchVectors` re-sorts the merged results by the formatted
similarity strings, and as Go strings `"-0.800000" > "-0.600000"`, so it
returns `v2, v1`. The similarities are distinct, so this is not a tie: the
claimed order equality (ties aside) fails. -/
theorem C1_counterexample :
    ∃ out,
      (SearchVectors ⟨[[⟨"v1", [(-3:ℝ), 4], some []⟩, ⟨"v2", [(-4:ℝ), 3], some []⟩]], 1⟩
        [(1:ℝ), 0] 2 []).2 = .ok out ∧
      out.map Vector.id = ["v2", "v1"] ∧
      bruteForceTopIds ⟨[[⟨"v1", [(-3:ℝ), 4], some []⟩, ⟨"v2", [(-4:ℝ), 3], some []⟩]], 1⟩
        [(1:ℝ), 0] 2 = ["v1", "v2"] ∧
      cosineValue [(1:ℝ), 0] [(-3:ℝ), 4] ≠ cosineValue [(1:ℝ), 0] [(-4:ℝ), 3] := by
  have hscan : scanVectors [(1:ℝ), 0] []
      [⟨"v1", [(-3:ℝ), 4], some []⟩, ⟨"v2", [(-4:ℝ), 3], some []⟩] =
      ([⟨"v1", [(-3:ℝ), 4], some [("similarity", "-0.600000")]⟩,
        ⟨"v2", [(-4:ℝ), 3], some [("similarity", "-0.800000")]⟩],
       .ok [(⟨"v1", [(-3:ℝ), 4], some [("similarity", "-0.600000")]⟩, -(3/5)),
            (⟨"v2", [(-4:ℝ), 3], some [("similarity", "-0.800000")]⟩, -(4/5))]) := by
    simp [scanVectors, matchesFilters, cos_ok_neg35, cos_ok_neg45,
      format_neg35, format_neg45, metaSet]
  have hsortpairs : sortDesc Prod.snd
      [((⟨"v1", [(-3:ℝ), 4], some [("similarity", "-0.600000")]⟩ : Vector), (-(3/5) : ℝ)),
       ((⟨"v2", [(-4:ℝ), 3], some [("similarity", "-0.800000")]⟩ : Vector), (-(4/5) : ℝ))] =
      [((⟨"v1", [(-3:ℝ), 4], some [("similarity", "-0.600000")]⟩ : Vector), (-(3/5) : ℝ)),
       ((⟨"v2", [(-4:ℝ), 3], some [("similarity", "-0.800000")]⟩ : Vector), (-(4/5) : ℝ))] :=
    sortDesc_pair_of_lt Prod.snd _ _ (by show (-(4/5) : ℝ) < -(3/5); norm_num)
  have hshard : searchShard
      [⟨"v1", [(-3:ℝ), 4], some []⟩, ⟨"v2", [(-4:ℝ), 3], some []⟩] [(1:ℝ), 0] 2 [] =
      ([⟨"v1", [(-3:ℝ), 4], some [("similarity", "-0.600000")]⟩,
        ⟨"v2", [(-4:ℝ), 3], some [("similarity", "-0.800000")]⟩],
       .ok [⟨"v1", [(-3:ℝ), 4], some [("similarity", "-0.600000")]⟩,
            ⟨"v2", [(-4:ℝ), 3], some [("similarity", "-0.800000")]⟩]) := by
    unfold searchShard
    rw [hscan]
    show (([⟨"v1", [(-3:ℝ), 4], some [("similarity", "-0.600000")]⟩,
        ⟨"v2", [(-4:ℝ), 3], some [("similarity", "-0.800000")]⟩] : List Vector),
      GoResult.ok ((List.take (Int.toNat 2) (sortDesc Prod.snd
        [((⟨"v1", [(-3:ℝ), 4], some [("similarity", "-0.600000")]⟩ : Vector), (-(3/5) : ℝ)),
         ((⟨"v2", [(-4:ℝ), 3], some [("similarity", "-0.800000")]⟩ : Vector), (-(4/5) : ℝ))])).map
        Prod.fst)) = _
    rw [hsortpairs]
    rfl
  have hsortstr : sortDesc (fun v : Vector => metaGet v.meta "similarity")
      [⟨"v1", [(-3:ℝ), 4], some [("similarity", "-0.600000")]⟩,
       ⟨"v2", [(-4:ℝ), 3], some [("similarity", "-0.800000")]⟩] =
      [⟨"v2", [(-4:ℝ), 3], some [("similarity", "-0.800000")]⟩,
       ⟨"v1", [(-3:ℝ), 4], some [("similarity", "-0.600000")]⟩] :=
    sortDesc_pair_of_not_lt _ _ _
      (by
        show ¬ (("-0.800000" : String) < "-0.600000")
        rw [String.lt_iff_toList_lt]
        decide)
  have hsortnum : sortDesc (fun v : Vector => cosineValue [(1:ℝ), 0] v.data)
      [⟨"v1", [(-3:ℝ), 4], some []⟩, ⟨"v2", [(-4:ℝ), 3], some []⟩] =
      [⟨"v1", [(-3:ℝ), 4], some []⟩, ⟨"v2", [(-4:ℝ), 3], some []⟩] :=
    sortDesc_pair_of_lt _ _ _
      (by
        show cosineValue [(1:ℝ), 0] [(-4:ℝ), 3] < cosineValue [(1:ℝ), 0] [(-3:ℝ), 4]
        rw [cosValue_neg45, cosValue_neg35]
        norm_num)
  refine ⟨[⟨"v2", [(-4:ℝ), 3], some [("similarity", "-0.800000")]⟩,
           ⟨"v1", [(-3:ℝ), 4], some [("similarity", "-0.600000")]⟩], ?_, rfl, ?_, ?_⟩
  · simp only [SearchVectors, List.map_cons, List.map_nil, hshard,
      List.findSome?_cons, List.findSome?_nil, panicOf, errOf, resultsOf,
      List.flatten_cons, List.flatten_nil, List.append_nil]
    rw [hsortstr]
    norm_num
  · unfold bruteForceTopIds
    show (List.take (Int.toNat 2) (sortDesc (fun r => cosineValue [(1:ℝ), 0] r.data)
      ([[⟨"v1", [(-3:ℝ), 4], some []⟩,
         ⟨"v2", [(-4:ℝ), 3], some []⟩]] : List (List Vector)).flatten)).map Vector.id = _
    simp only [List.flatten_cons, List.flatten_nil, List.append_nil]
    rw [hsortnum]
    rfl
  · rw [cosValue_neg35, cosValue_neg45]
    norm_num

/-- Witness for C1 amended at a concrete store: a single shard holding one
record whose similarity to the query is 1. -/
theorem C1_amended_witness :
    ∃ out, (SearchVectors ⟨[[⟨"a", [(3:ℝ), 4], some []⟩]], 1⟩ [(3:ℝ), 4] 1 []).2 =
        .ok out ∧
      out.map Vector.id =
        bruteForceTopIds ⟨[[⟨"a", [(3:ℝ), 4], some []⟩]], 1⟩ [(3:ℝ), 4] 1 := by
  have hd : dotList [(3:ℝ), 4] [(3:ℝ), 4] = 25 := by
    simp [dotList]
    norm_num
  have hnz : euclidNorm [(3:ℝ), 4] ≠ 0 := by
    rw [Ne, euclidNorm_eq_zero_iff, hd]
    norm_num
  exact C1_amended_search_refines_bruteforce
    ⟨[[⟨"a", [(3:ℝ), 4], some []⟩]], 1⟩ [(3:ℝ), 4] 1 (by norm_num) (by simp)
    (by
      intro r hr
      simp only [List.flatten, List.append_nil] at hr
      rcases List.mem_singleton.mp hr with rfl
      exact ⟨[], rfl⟩)
    (by
      intro r hr
      simp only [List.flatten, List.append_nil] at hr
      rcases List.mem_singleton.mp hr with rfl
      rfl)
    hnz
    (by
      intro r hr
      simp only [List.flatten, List.append_nil] at hr
      rcases List.mem_singleton.mp hr with rfl
      exact hnz)
    (by
      intro r hr
      simp only [List.flatten, List.append_nil] at hr
      rcases List.mem_singleton.mp hr with rfl
      show (0:ℝ) ≤ cosineValue [(3:ℝ), 4] [(3:ℝ), 4]
      rw [cosineValue_self _ (by rw [hd]; norm_num)]
      norm_num)
    (by
      simp only [List.flatten, List.append_nil]
      exact List.pairwise_singleton _ _)

end SavitarDB
